import Mathlib

/-!
Verification of the grappa repository's tuple-indexing and MolData layers.

The Python sources embedded here:
- src/grappa/ff_utils/create_graph/tuple_indices.py (symmetry-reduced
  interaction-tuple enumeration),
- src/grappa/data/MolData.py (conformational dataset entry, construction,
  validation, flat-dictionary (de)serialization),
- src/grappa/utils/openmm_utils.py (write_to_system).

Machine floats are modelled by rational numbers, numpy arrays by typed
Lean lists; Python's `set` is modelled by a duplicate-free list with
membership-guarded insertion (only membership is observable in the source).
-/

namespace Grappa

/-! ## Tuple indexer: src/grappa/ff_utils/create_graph/tuple_indices.py

A molecular graph (rdkit `Mol`) is embedded as an adjacency list:
entry `i` of the list is the neighbor list of atom `i` (rdkit's
`GetAtoms`/`GetNeighbors` iteration order). -/

abbrev MolGraph := List (List Nat)

abbrev T2 := Nat × Nat
abbrev T3 := Nat × Nat × Nat
abbrev T4 := Nat × Nat × Nat × Nat

def atomsOf (g : MolGraph) : List Nat := List.range g.length

def nbrs (g : MolGraph) (i : Nat) : List Nat := g.getD i []

/-- `get_symmetric_tuples(level='n2', ...)`: permutations `[(0,1),(1,0)]`. -/
def get_symmetric_tuples_n2 : T2 → List T2
  | (a, b) => [(a, b), (b, a)]

/-- `get_symmetric_tuples(level='n3', ...)`: permutations `[(0,1,2),(2,1,0)]`. -/
def get_symmetric_tuples_n3 : T3 → List T3
  | (a, b, c) => [(a, b, c), (c, b, a)]

/-- `get_symmetric_tuples` for `level == 'n4'` and also `level == 'n4_improper'`:
in the source both level strings take the same branch with permutations
`[(0,1,2,3), (3,2,1,0), (3,1,2,0), (0,2,1,3)]` (the dedicated cyclic
`n4_improper` branch is commented out in `tuple_indices.py`). -/
def get_symmetric_tuples_n4 : T4 → List T4
  | (a, b, c, d) => [(a, b, c, d), (d, c, b, a), (d, b, c, a), (a, c, b, d)]

/-- The cyclic improper symmetry as written in the OTHER copy of
`get_symmetric_tuples` (src/grappa/ff_utils/create_graph/utils.py,
`level == 'n4_improper'`): central atom fixed at index 2, the three
non-central atoms permuted cyclically, permutations
`[(0,1,3), (1,3,0), (3,0,1)]` of the wing positions. This is the symmetry
the spec attributes to the reduced improper set. -/
def utils_get_symmetric_tuples_n4_improper : T4 → List T4
  | (a, b, c, d) => [(a, b, c, d), (b, d, c, a), (d, a, c, b)]

/-- `apply_symmetry(idx_set, tuple_, level, reduce_symmetry)` from
tuple_indices.py, for one fixed level whose invariant permutations are
computed by `sym`. The Python set is modelled as a duplicate-free list. -/
def apply_symmetry {α : Type} [DecidableEq α] (idx_set : List α) (tuple_ : α)
    (sym : α → List α) (reduce_symmetry : Bool) : List α :=
  let invariant_tuples := sym tuple_
  if reduce_symmetry then
    -- if any of the invariant tuples is already in the set, don't add
    if invariant_tuples.any (fun t => idx_set.contains t) then idx_set
    else idx_set ++ [tuple_]
  else
    -- if all invariant tuples are in the set, continue, else add all
    if invariant_tuples.all (fun t => idx_set.contains t) then idx_set
    else invariant_tuples.foldl
      (fun s t => if s.contains t then s else s ++ [t]) idx_set

/-- Candidate angle tuples, in the traversal order of `construct_angles`:
`atom1` over all atoms, `atom2` over its neighbors, `atom3` over `atom2`'s
neighbors, skipping `atom1 == atom3`. -/
def angleCandidates (g : MolGraph) : List T3 :=
  (atomsOf g).flatMap (fun a1 =>
    (nbrs g a1).flatMap (fun a2 =>
      (nbrs g a2).filterMap (fun a3 =>
        if a1 = a3 then none else some (a1, a2, a3))))

/-- `construct_angles(mol, reduce_symmetry)`. -/
def construct_angles (g : MolGraph) (reduce_symmetry : Bool := true) : List T3 :=
  (angleCandidates g).foldl
    (fun s t => apply_symmetry s t get_symmetric_tuples_n3 reduce_symmetry) []

/-- Candidate proper-torsion tuples of `construct_torsions`, already in the
canonical orientation chosen there (`atom1_idx < atom4_idx` keeps the tuple,
otherwise it is reversed). Traversal: `atom1`, `atom2 in nbrs(atom1)`,
`atom3 in nbrs(atom2)` with `atom3 != atom1`, `atom4 in nbrs(atom3)` with
`atom4 != atom2` and `atom4 != atom1`. -/
def properCandidates (g : MolGraph) : List T4 :=
  (atomsOf g).flatMap (fun a1 =>
    (nbrs g a1).flatMap (fun a2 =>
      ((nbrs g a2).filter (fun a3 => a3 ≠ a1)).flatMap (fun a3 =>
        (nbrs g a3).filterMap (fun a4 =>
          if a4 = a2 then none
          else if a1 = a4 then none
          else if a1 < a4 then some (a1, a2, a3, a4)
          else some (a4, a3, a2, a1)))))

/-- Candidate improper-torsion tuples of `construct_torsions`: for
`atom3i in nbrs(atom2)` with `atom3i != atom3` and `atom3i != atom1`, the
list `[atom1, atom2, atom3, atom3i]` has entries 1 and
`central_atom_position-1 = 2` swapped, yielding `(atom1, atom3, atom2, atom3i)`
with the central atom `atom2` at index 2. -/
def improperCandidates (g : MolGraph) : List T4 :=
  (atomsOf g).flatMap (fun a1 =>
    (nbrs g a1).flatMap (fun a2 =>
      ((nbrs g a2).filter (fun a3 => a3 ≠ a1)).flatMap (fun a3 =>
        ((nbrs g a2).filter (fun a3i => a3i ≠ a3 ∧ a3i ≠ a1)).map (fun a3i =>
          (a1, a3, a2, a3i)))))

/-- `construct_torsions(mol, reduce_symmetry)`, returning
`(propers, impropers)`. The source fills the two disjoint sets inside one
nested loop; the two inner loops never read each other's set, so they are
modelled as two independent folds over the corresponding candidate lists.
Both levels (`'n4'` and `'n4_improper'`) use `get_symmetric_tuples_n4`,
exactly as in the source. -/
def construct_torsions (g : MolGraph) (reduce_symmetry : Bool := true) :
    List T4 × List T4 :=
  ((properCandidates g).foldl
    (fun s t => apply_symmetry s t get_symmetric_tuples_n4 reduce_symmetry) [],
   (improperCandidates g).foldl
    (fun s t => apply_symmetry s t get_symmetric_tuples_n4 reduce_symmetry) [])

/-- Scenario graphs: the 4-atom chain with bonds {(0,1),(1,2),(2,3)} ... -/
def chainGraph : MolGraph := [[1], [0, 2], [1, 3], [2]]

/-- ... and the star graph with center 0 bonded to 1, 2, 3. -/
def starGraph : MolGraph := [[1, 2, 3], [0], [0], [0]]

/-! ### Generic facts about the symmetry-reducing fold -/

section ApplySymmetryLemmas

variable {α : Type} [DecidableEq α] (sym : α → List α)

/-- Elements of the reduced set come from the initial set or the candidates. -/
theorem mem_foldl_applySym {cands : List α} {s : List α} {t : α}
    (h : t ∈ cands.foldl (fun s c => apply_symmetry s c sym true) s) :
    t ∈ s ∨ t ∈ cands := by
  induction cands generalizing s with
  | nil => exact Or.inl h
  | cons c cs ih =>
    rcases ih h with h' | h'
    · unfold apply_symmetry at h'
      simp only [if_true] at h'
      split at h'
      · exact Or.inl h'
      · rcases List.mem_append.1 h' with h'' | h''
        · exact Or.inl h''
        · simp only [List.mem_singleton] at h''
          exact Or.inr (h'' ▸ List.mem_cons_self c cs)
    · exact Or.inr (List.mem_cons_of_mem c h')

/-- The fold only ever grows the set. -/
theorem subset_foldl_applySym (cands : List α) (s : List α) {t : α}
    (h : t ∈ s) :
    t ∈ cands.foldl (fun s c => apply_symmetry s c sym true) s := by
  induction cands generalizing s with
  | nil => exact h
  | cons c cs ih =>
    apply ih
    unfold apply_symmetry
    simp only [if_true]
    split
    · exact h
    · exact List.mem_append.2 (Or.inl h)

/-- No two distinct elements of the reduced set are symmetric variants of
each other, provided the variant relation is symmetric. -/
theorem good_foldl_applySym
    (hsymm : ∀ t u : α, u ∈ sym t → t ∈ sym u)
    (cands : List α) (s : List α)
    (hs : ∀ t ∈ s, ∀ u ∈ s, u ≠ t → u ∉ sym t) :
    ∀ t ∈ cands.foldl (fun s c => apply_symmetry s c sym true) s,
      ∀ u ∈ cands.foldl (fun s c => apply_symmetry s c sym true) s,
        u ≠ t → u ∉ sym t := by
  induction cands generalizing s with
  | nil => exact hs
  | cons c cs ih =>
    apply ih
    unfold apply_symmetry
    simp only [if_true]
    split
    · exact hs
    · rename_i hguard
      have hfresh : ∀ u ∈ sym c, u ∉ s := by
        intro u hu hus
        exact hguard (List.any_eq_true.2 ⟨u, hu, List.elem_iff.2 hus⟩)
      intro t ht u hu hne
      rcases List.mem_append.1 ht with ht' | ht' <;>
        rcases List.mem_append.1 hu with hu' | hu'
      · exact hs t ht' u hu' hne
      · simp only [List.mem_singleton] at hu'
        subst hu'
        intro hmem
        exact hfresh t (hsymm t u hmem) ht'
      · simp only [List.mem_singleton] at ht'
        subst ht'
        intro hmem
        exact hfresh u hmem hu'
      · simp only [List.mem_singleton] at ht' hu'
        exact absurd (hu'.trans ht'.symm) hne

/-- Every processed candidate has a representative in the reduced set. -/
theorem rep_foldl_applySym
    (hid : ∀ t : α, t ∈ sym t)
    (cands : List α) (s : List α) {c : α} (hc : c ∈ cands) :
    ∃ t ∈ cands.foldl (fun s c => apply_symmetry s c sym true) s,
      t ∈ sym c := by
  induction cands generalizing s with
  | nil => cases hc
  | cons c' cs ih =>
    rcases List.mem_cons.1 hc with rfl | hc'
    · by_cases hguard :
        (sym c).any (fun t => (s.contains t : Bool)) = true
      · rcases List.any_eq_true.1 hguard with ⟨u, hu, hus⟩
        refine ⟨u, ?_, hu⟩
        apply subset_foldl_applySym sym cs
        unfold apply_symmetry
        simp only [if_true, hguard, if_pos]
        exact List.elem_iff.1 hus
      · refine ⟨c, ?_, hid c⟩
        apply subset_foldl_applySym sym cs
        unfold apply_symmetry
        simp only [if_true, hguard, if_neg, Bool.false_eq_true,
          not_false_iff]
        exact List.mem_append.2 (Or.inr (List.mem_singleton.2 rfl))
    · exact ih _ hc'

end ApplySymmetryLemmas

/-! ### The four-tuple permutation group used for propers and impropers -/

theorem mem_self_sym4 (t : T4) : t ∈ get_symmetric_tuples_n4 t := by
  obtain ⟨a, b, c, d⟩ := t
  simp [get_symmetric_tuples_n4]

theorem sym4_symm (t u : T4) (h : u ∈ get_symmetric_tuples_n4 t) :
    t ∈ get_symmetric_tuples_n4 u := by
  obtain ⟨a, b, c, d⟩ := t
  simp only [get_symmetric_tuples_n4, List.mem_cons, List.mem_singleton,
    List.not_mem_nil, or_false] at h
  rcases h with rfl | rfl | rfl | rfl <;> simp [get_symmetric_tuples_n4]

theorem sym4_trans (c t u : T4) (ht : t ∈ get_symmetric_tuples_n4 c)
    (hu : u ∈ get_symmetric_tuples_n4 c) :
    u ∈ get_symmetric_tuples_n4 t := by
  obtain ⟨a, b, c', d⟩ := c
  simp only [get_symmetric_tuples_n4, List.mem_cons, List.mem_singleton,
    List.not_mem_nil, or_false] at ht hu
  rcases ht with rfl | rfl | rfl | rfl <;>
    rcases hu with rfl | rfl | rfl | rfl <;>
      simp [get_symmetric_tuples_n4]

/-- Shorthand for the reduced improper set of a graph. -/
def reducedImpropers (g : MolGraph) : List T4 := (construct_torsions g true).2

/-- C1 (amended): in the symmetry-reduced improper set, every stored tuple is
a generated candidate `(atom1, atom3, atom2, atom3i)` whose central atom
`atom2` sits at index 2 (position 3, 1-indexed) with the other three atoms
its graph neighbors-or-neighbor-of-wing as enumerated; no stored tuple's
three OTHER orderings under the group actually applied by the code
(`get_symmetric_tuples_n4`: full reversal and the two outer-atom swaps) are
separately present; and each equivalence class of candidates under that
group is represented by exactly one stored tuple. (The spec's claimed
3-cyclic wing symmetry is NOT the reduction the code performs; see the
counterexample.) -/
theorem c1_improper_symmetry_amended (g : MolGraph) :
    (∀ t ∈ reducedImpropers g, ∃ a1 a2 a3 a3i : Nat,
      t = (a1, a3, a2, a3i) ∧ a1 ∈ atomsOf g ∧ a2 ∈ nbrs g a1 ∧
      a3 ∈ nbrs g a2 ∧ a3i ∈ nbrs g a2 ∧ a3 ≠ a1 ∧ a3i ≠ a3 ∧ a3i ≠ a1) ∧
    (∀ t ∈ reducedImpropers g, ∀ u ∈ reducedImpropers g,
      u ≠ t → u ∉ get_symmetric_tuples_n4 t) ∧
    (∀ c ∈ improperCandidates g, ∃ t,
      t ∈ reducedImpropers g ∧ t ∈ get_symmetric_tuples_n4 c ∧
      ∀ t', t' ∈ reducedImpropers g → t' ∈ get_symmetric_tuples_n4 c →
        t' = t) := by
  refine ⟨?_, ?_, ?_⟩
  · intro t ht
    have hcand : t ∈ improperCandidates g := by
      rcases mem_foldl_applySym get_symmetric_tuples_n4 ht with h | h
      · cases h
      · exact h
    simp only [improperCandidates, List.mem_flatMap, List.mem_filter,
      List.mem_map, decide_eq_true_eq] at hcand
    obtain ⟨a1, ha1, a2, ha2, a3, ⟨ha3, ha3ne⟩, a3i, ⟨ha3i, ha3ine⟩, heq⟩ :=
      hcand
    exact ⟨a1, a2, a3, a3i, heq.symm, ha1, ha2, ha3, ha3i, ha3ne,
      ha3ine.1, ha3ine.2⟩
  · exact good_foldl_applySym get_symmetric_tuples_n4 sym4_symm
      (improperCandidates g) [] (by intro t ht; cases ht)
  · intro c hc
    obtain ⟨t, ht, hsym⟩ :=
      rep_foldl_applySym get_symmetric_tuples_n4 mem_self_sym4
        (improperCandidates g) [] hc
    refine ⟨t, ht, hsym, ?_⟩
    intro t' ht' hsym'
    by_contra hne
    exact good_foldl_applySym get_symmetric_tuples_n4 sym4_symm
      (improperCandidates g) [] (by intro x hx; cases hx)
      t ht t' ht' hne (sym4_trans c t t' hsym hsym')

/-- C1 counterexample: on the star graph (center 0 bonded to 1, 2, 3) the
reduced improper set contains BOTH `(1,3,0,2)` and `(2,1,0,3)`, which are
cyclic rotations of each other's non-central atoms around the fixed central
atom 0 — so, contrary to the claim, a stored improper's cyclic-equivalent
ordering IS separately present, and the 3-element cyclic class has two
stored representatives. -/
theorem c1_cyclic_counterexample :
    ((1, 3, 0, 2) : T4) ∈ reducedImpropers starGraph ∧
    ((2, 1, 0, 3) : T4) ∈ reducedImpropers starGraph ∧
    ((2, 1, 0, 3) : T4) ∈
      utils_get_symmetric_tuples_n4_improper (1, 3, 0, 2) ∧
    ((2, 1, 0, 3) : T4) ≠ (1, 3, 0, 2) := by decide

/-- Witness for the amended C1 theorem at the star graph. -/
theorem c1_improper_symmetry_witness :
    ((1, 2, 0, 3) : T4) ∈ reducedImpropers starGraph ∧
    (∃ a1 a2 a3 a3i : Nat,
      ((1, 2, 0, 3) : T4) = (a1, a3, a2, a3i) ∧ a1 ∈ atomsOf starGraph ∧
      a2 ∈ nbrs starGraph a1 ∧ a3 ∈ nbrs starGraph a2 ∧
      a3i ∈ nbrs starGraph a2 ∧ a3 ≠ a1 ∧ a3i ≠ a3 ∧ a3i ≠ a1) :=
  ⟨by decide, (c1_improper_symmetry_amended starGraph).1 (1, 2, 0, 3)
    (by decide)⟩

/-- C5 counterexample: the star graph stores 3 improper tuples, not exactly
1 as claimed. -/
theorem c5_star_counterexample :
    ¬ ((reducedImpropers starGraph).length = 1) := by decide

/-- C5 (amended): the star graph with center 0 bonded to 1, 2, 3 yields
exactly 3 stored improper tuples — one per equivalence class under the
torsion-style symmetry the code actually applies (which identifies only the
outer-atom swap among central-atom-preserving orderings, not the 3 cyclic
rotations) — and exactly 3 angle tuples. -/
theorem c5_star_amended :
    reducedImpropers starGraph = [(1, 2, 0, 3), (1, 3, 0, 2), (2, 1, 0, 3)] ∧
    construct_angles starGraph true = [(1, 0, 2), (1, 0, 3), (2, 0, 3)] := by
  decide

/-- C6: the 4-atom chain graph with bonds {(0,1),(1,2),(2,3)} yields exactly
one proper torsion, stored as `(0,1,2,3)` (the lower-id terminal atom first;
its reversal is not separately present), and no impropers. -/
theorem c6_chain_torsions :
    construct_torsions chainGraph true = ([(0, 1, 2, 3)], []) := by decide

/-! ## String helpers for the flat-dictionary key scheme

Python string operations used by `MolData.to_dict`/`from_dict`
(`startswith`, substring `in`, `split('_', n)[n]`), implemented on the
character lists underlying `String`. -/

/-- `chStarts pat s` is true when `pat` is a leading segment of `s`
(Python `s.startswith(pat)` on character lists). -/
def chStarts : List Char → List Char → Bool
  | [], _ => true
  | _ :: _, [] => false
  | p :: ps, c :: cs => p == c && chStarts ps cs

/-- Python `s.startswith(pat)`. -/
def pyStartsWith (s pat : String) : Bool := chStarts pat.data s.data

/-- Everything after the first occurrence of `c` (empty if `c` absent).
Used for Python `s.split(sep, n)[n]`, which in `MolData.from_dict` is only
applied to keys that do contain the separator. -/
def chSplitRest (c : Char) : List Char → List Char
  | [] => []
  | x :: xs => if x = c then xs else chSplitRest c xs

/-- Python `k.split('_', 1)[1]`. -/
def pySplit1 (s : String) : String := ⟨chSplitRest '_' s.data⟩

/-- Python `k.split('_', 2)[2]`. -/
def pySplit2 (s : String) : String := ⟨chSplitRest '_' (chSplitRest '_' s.data)⟩

/-- `chContainsSub pat s`: some contiguous segment of `s` equals `pat`
(Python `pat in s` on character lists). -/
def chContainsSub (pat : List Char) : List Char → Bool
  | [] => chStarts pat []
  | c :: rest => chStarts pat (c :: rest) || chContainsSub pat rest

/-- Python `pat in s` for strings. -/
def pyContains (s pat : String) : Bool := chContainsSub pat.data s.data

/-! ## Data model: arrays, flat dictionaries

Numpy float arrays are modelled over `ℚ`; the shapes occurring in MolData
are 1-d arrays (`List ℚ`), `(n_confs, n_atoms, 3)` arrays (`Grad`),
`(n, max_periodicity)` arrays (`List (List ℚ)`), integer tuple-index arrays
and 0-d string arrays. A value of an npz-style flat dictionary is one of
these. -/

abbrev Grad := List (List (ℚ × ℚ × ℚ))

/-- numpy's `arr.shape` restricted to what `_validate` compares: for 1-d
arrays the length is compared directly; for `(n_confs, n_atoms, 3)` arrays
the per-conformation row lengths determine the shape (the trailing 3 is
fixed by the type). -/
def gradShape (g : Grad) : List Nat := g.map List.length

inductive Val : Type
  | vE : List ℚ → Val
  | vG : Grad → Val
  | vS : String → Val
  | vN : List Nat → Val
  | vT2 : List T2 → Val
  | vT3 : List T3 → Val
  | vT4 : List T4 → Val
  | vM : List (List ℚ) → Val
deriving DecidableEq

abbrev Dict := List (String × Val)

/-- Python dict lookup `d.get(k)` on an association list. -/
def alookup {β : Type} (k : String) : List (String × β) → Option β
  | [] => none
  | (k', v) :: rest => if k' = k then some v else alookup k rest

def dlookup (k : String) (d : Dict) : Option Val := alookup k d

/-- Python `d[k]` (raises `KeyError` when absent). -/
def getKey (d : Dict) (k : String) : Except String Val :=
  match dlookup k d with
  | some v => Except.ok v
  | none => Except.error ("KeyError: " ++ k)

/- Dynamic typing made explicit: the source reads dictionary slots and uses
them as arrays of the expected kind; the embedding checks the kind. -/

def asE : Val → Except String (List ℚ)
  | .vE l => Except.ok l
  | _ => Except.error "expected a 1-d float array"

def asG : Val → Except String Grad
  | .vG g => Except.ok g
  | _ => Except.error "expected a gradient-shaped float array"

def asS : Val → Except String String
  | .vS s => Except.ok s
  | _ => Except.error "expected a string"

def asN : Val → Except String (List Nat)
  | .vN l => Except.ok l
  | _ => Except.error "expected an int array"

def asT2 : Val → Except String (List T2)
  | .vT2 l => Except.ok l
  | _ => Except.error "expected an int array of pairs"

def asT3 : Val → Except String (List T3)
  | .vT3 l => Except.ok l
  | _ => Except.error "expected an int array of triples"

def asT4 : Val → Except String (List T4)
  | .vT4 l => Except.ok l
  | _ => Except.error "expected an int array of quadruples"

def asM : Val → Except String (List (List ℚ))
  | .vM l => Except.ok l
  | _ => Except.error "expected a 2-d float array"

/-! ## Molecule and Parameters

The classes `Molecule` and `Parameters` (src/grappa/data) are not among the
provided source files; they are modelled from the spec. -/

/-- Modelled from the spec: the Molecule entity holds atoms (stable integer
ids), bonds and the derived angle/proper/improper tuple sets, plus per-atom
features (represented here by the partial-charge array). Missing source:
src/grappa/data/Molecule.py. -/
structure Molecule : Type where
  atoms : List Nat
  bonds : List T2
  angles : List T3
  propers : List T4
  impropers : List T4
  partial_charges : List ℚ
deriving DecidableEq

/-- Modelled from the spec: `Molecule.to_dict` exports the atom/bond/tuple
arrays and features under its own flat keys (the tuple keys named in
`MolData.to_dict`/`from_dict`). -/
def Molecule.to_dict (m : Molecule) : Dict :=
  [("atoms", Val.vN m.atoms), ("bonds", Val.vT2 m.bonds),
   ("angles", Val.vT3 m.angles), ("propers", Val.vT4 m.propers),
   ("impropers", Val.vT4 m.impropers),
   ("partial_charges", Val.vE m.partial_charges)]

/-- Modelled from the spec: `Molecule.from_dict`, the lossless inverse of
`Molecule.to_dict` (reads its own keys, ignores any others). -/
def Molecule.from_dict (d : Dict) : Except String Molecule := do
  let atoms ← asN (← getKey d "atoms")
  let bonds ← asT2 (← getKey d "bonds")
  let angles ← asT3 (← getKey d "angles")
  let propers ← asT4 (← getKey d "propers")
  let impropers ← asT4 (← getKey d "impropers")
  let partial_charges ← asE (← getKey d "partial_charges")
  Except.ok ⟨atoms, bonds, angles, propers, impropers, partial_charges⟩

/-- Modelled from the spec: per-tuple classical parameters — tuple-id arrays
plus value arrays (`(k, eq)` per bond/angle; `(ks, phases)` rows of fixed
max periodicity per proper/improper, periodicity `n` being row index `n-1`).
The field list matches `param_keys`/`tuple_keys` in `MolData.from_dict`.
Missing source: src/grappa/data/Parameters.py. -/
structure Parameters : Type where
  atoms : List Nat
  bonds : List T2
  angles : List T3
  propers : List T4
  impropers : List T4
  bond_k : List ℚ
  bond_eq : List ℚ
  angle_k : List ℚ
  angle_eq : List ℚ
  proper_ks : List (List ℚ)
  proper_phases : List (List ℚ)
  improper_ks : List (List ℚ)
  improper_phases : List (List ℚ)
deriving DecidableEq

def Parameters.to_dict (p : Parameters) : Dict :=
  [("atoms", Val.vN p.atoms), ("bonds", Val.vT2 p.bonds),
   ("angles", Val.vT3 p.angles), ("propers", Val.vT4 p.propers),
   ("impropers", Val.vT4 p.impropers),
   ("bond_k", Val.vE p.bond_k), ("bond_eq", Val.vE p.bond_eq),
   ("angle_k", Val.vE p.angle_k), ("angle_eq", Val.vE p.angle_eq),
   ("proper_ks", Val.vM p.proper_ks),
   ("proper_phases", Val.vM p.proper_phases),
   ("improper_ks", Val.vM p.improper_ks),
   ("improper_phases", Val.vM p.improper_phases)]

def Parameters.from_dict (d : Dict) : Except String Parameters := do
  let atoms ← asN (← getKey d "atoms")
  let bonds ← asT2 (← getKey d "bonds")
  let angles ← asT3 (← getKey d "angles")
  let propers ← asT4 (← getKey d "propers")
  let impropers ← asT4 (← getKey d "impropers")
  let bond_k ← asE (← getKey d "bond_k")
  let bond_eq ← asE (← getKey d "bond_eq")
  let angle_k ← asE (← getKey d "angle_k")
  let angle_eq ← asE (← getKey d "angle_eq")
  let proper_ks ← asM (← getKey d "proper_ks")
  let proper_phases ← asM (← getKey d "proper_phases")
  let improper_ks ← asM (← getKey d "improper_ks")
  let improper_phases ← asM (← getKey d "improper_phases")
  Except.ok ⟨atoms, bonds, angles, propers, impropers, bond_k, bond_eq,
    angle_k, angle_eq, proper_ks, proper_phases, improper_ks,
    improper_phases⟩

/-- Modelled from the spec: `Parameters.get_nan_params(mol)` — the tuple-id
arrays are the molecule's own tuple arrays and every value array has the
matching leading dimension, filled with NaN. NaN itself has no counterpart
in `ℚ`; the placeholder entries are 0 here, which none of the proved claims
inspect (serialization never looks at values, and the claims about value
arithmetic pass explicit parameters). Max periodicity is the default 6. -/
def Parameters.get_nan_params (mol : Molecule) : Parameters :=
  { atoms := mol.atoms, bonds := mol.bonds, angles := mol.angles,
    propers := mol.propers, impropers := mol.impropers,
    bond_k := mol.bonds.map (fun _ => 0),
    bond_eq := mol.bonds.map (fun _ => 0),
    angle_k := mol.angles.map (fun _ => 0),
    angle_eq := mol.angles.map (fun _ => 0),
    proper_ks := mol.propers.map (fun _ => List.replicate 6 0),
    proper_phases := mol.propers.map (fun _ => List.replicate 6 0),
    improper_ks := mol.impropers.map (fun _ => List.replicate 6 0),
    improper_phases := mol.impropers.map (fun _ => List.replicate 6 0) }

/-! ## MolData: src/grappa/data/MolData.py -/

/-- The MolData dataclass after `__post_init__` has run: the ff dictionaries
are populated, `classical_parameters` is set and `mol_id` has been
stringified. The reference arrays are modelled in the constructed state
(present), which is the state `to_dict` serializes. Python dicts are
insertion-ordered association lists. -/
structure MolData : Type where
  molecule : Molecule
  xyz : Grad
  energy : List ℚ
  gradient : Grad
  energy_ref : List ℚ
  gradient_ref : Grad
  mol_id : String
  classical_parameters : Parameters
  sequence : Option String
  smiles : Option String
  improper_energy_ref : Option (List ℚ)
  improper_gradient_ref : Option Grad
  mapped_smiles : Option String
  pdb : Option String
  ff_nonbonded_energy : List (String × List ℚ)
  ff_nonbonded_gradient : List (String × Grad)
  ff_energy : List (String × List ℚ)
  ff_gradient : List (String × Grad)
deriving DecidableEq

/-- The arguments of the dataclass constructor `MolData(...)` before
`__post_init__`: optional dictionaries default to `None`, `mol_id` may be
`None` (Python then stores `str(None) == 'None'`). -/
structure MolDataArgs : Type where
  molecule : Molecule
  xyz : Grad
  energy : List ℚ
  gradient : Grad
  energy_ref : List ℚ
  gradient_ref : Grad
  mol_id : Option String
  classical_parameters : Option Parameters := none
  sequence : Option String := none
  smiles : Option String := none
  improper_energy_ref : Option (List ℚ) := none
  improper_gradient_ref : Option Grad := none
  mapped_smiles : Option String := none
  pdb : Option String := none
  ff_nonbonded_energy : Option (List (String × List ℚ)) := none
  ff_nonbonded_gradient : Option (List (String × Grad)) := none
  ff_energy : Option (List (String × List ℚ)) := none
  ff_gradient : Option (List (String × Grad)) := none

/-- Python `str` applied to the `mol_id` argument (`str(None) == 'None'`). -/
def pyStr : Option String → String
  | none => "None"
  | some s => s

/-- `MolData._validate`: every ff energy array's shape must match the energy
shape, every ff gradient array's shape must match the gradient shape, and
`mol_id` must not be `None`-like. (`gradient` is modelled as always present;
post-`str()` the check `mol_id is not None and mol_id != 'None'` reduces to
the string comparison.) -/
def MolData.validate (m : MolData) : Except String Unit :=
  if m.ff_energy.all (fun kv => decide (kv.2.length = m.energy.length)) then
    if m.ff_gradient.all
        (fun kv => decide (gradShape kv.2 = gradShape m.gradient)) then
      if m.mol_id = "None" then
        Except.error "mol_id must be provided"
      else Except.ok ()
    else Except.error "Shape of ff_gradient does not match gradient"
  else Except.error "Shape of ff_energy does not match energy"

/-- The record built by `__post_init__` from the constructor arguments:
default ff dictionaries, insertion of the `'qm'` entries when absent,
NaN-parameter default, `mol_id` stringification. -/
def MolData.build (a : MolDataArgs) : MolData :=
  let ffE0 := a.ff_energy.getD []
  let ffG0 := a.ff_gradient.getD []
  let ffE := if (alookup "qm" ffE0).isSome then ffE0
    else ffE0 ++ [("qm", a.energy)]
  let ffG := if (alookup "qm" ffG0).isSome then ffG0
    else ffG0 ++ [("qm", a.gradient)]
  { molecule := a.molecule, xyz := a.xyz, energy := a.energy,
    gradient := a.gradient, energy_ref := a.energy_ref,
    gradient_ref := a.gradient_ref, mol_id := pyStr a.mol_id,
    classical_parameters :=
      a.classical_parameters.getD (Parameters.get_nan_params a.molecule),
    sequence := a.sequence, smiles := a.smiles,
    improper_energy_ref := a.improper_energy_ref,
    improper_gradient_ref := a.improper_gradient_ref,
    mapped_smiles := a.mapped_smiles, pdb := a.pdb,
    ff_nonbonded_energy := a.ff_nonbonded_energy.getD [],
    ff_nonbonded_gradient := a.ff_nonbonded_gradient.getD [],
    ff_energy := ffE, ff_gradient := ffG }

/-- The dataclass constructor: `__post_init__` then `_validate`. -/
def MolData.make (a : MolDataArgs) : Except String MolData :=
  let m := MolData.build a
  (m.validate).map (fun _ => m)

/-! ### `MolData.from_arrays` -/

def listSub (a b : List ℚ) : List ℚ := a.zipWith (fun x y => x - y) b

def qmean (l : List ℚ) : ℚ := l.sum / l.length

/-- `arr -= arr.mean()`. -/
def centerList (l : List ℚ) : List ℚ := l.map (fun x => x - qmean l)

def gradSub (a b : Grad) : Grad :=
  a.zipWith (fun r1 r2 => r1.zipWith
    (fun p q => (p.1 - q.1, p.2.1 - q.2.1, p.2.2 - q.2.2)) r2) b

/-- `np.zeros_like(xyz)`. -/
def zerosLike (a : Grad) : Grad :=
  a.map (fun row => row.map (fun _ => ((0 : ℚ), (0 : ℚ), (0 : ℚ))))

/-- `MolData.from_arrays`: reference energy is the QM energy minus the
nonbonded energy, then mean-centered; the reference gradient is the plain
difference. A provided gradient requires a provided nonbonded gradient;
an absent gradient zero-fills both. `mol_id` falls back to smiles, then
sequence, then the empty string. -/
def MolData.from_arrays (molecule : Molecule) (xyz : Grad)
    (energy : List ℚ) (nonbonded_energy : List ℚ)
    (gradient : Option Grad := none)
    (nonbonded_gradient : Option Grad := none)
    (smiles : Option String := none) (sequence : Option String := none)
    (mol_id : Option String := none)
    (ff_energy : Option (List ℚ) := none)
    (ff_gradient : Option Grad := none) : Except String MolData :=
  let energy_ref := centerList (listSub energy nonbonded_energy)
  match gradient, nonbonded_gradient with
  | some _, none =>
    Except.error
      "If gradient is provided, nonbonded_gradient must be provided as well."
  | gOpt, ngOpt =>
    let grad := match gOpt with
      | none => zerosLike xyz
      | some g => g
    let ngrad := match gOpt, ngOpt with
      | none, _ => zerosLike xyz
      | some _, ng => ng.getD (zerosLike xyz)
    let gradient_ref := gradSub grad ngrad
    let molId : Option String := match mol_id with
      | some i => some i
      | none => match smiles with
        | some s => some s
        | none => match sequence with
          | some q => some q
          | none => some ""
    MolData.make
      { molecule := molecule, xyz := xyz, energy := energy,
        gradient := grad, energy_ref := energy_ref,
        gradient_ref := gradient_ref, mol_id := molId,
        smiles := smiles, sequence := sequence,
        ff_nonbonded_energy := some [("reference_ff", nonbonded_energy)],
        ff_nonbonded_gradient := some [("reference_ff", ngrad)],
        ff_energy := ff_energy.map (fun e => [("reference_ff", e)]),
        ff_gradient := ff_gradient.map (fun g => [("reference_ff", g)]) }

/-! ### `MolData.to_dict` / `MolData.from_dict` -/

/-- One optional entry of the flat dictionary. -/
def optSeg {β : Type} (k : String) (enc : β → Val) : Option β → Dict
  | none => []
  | some v => [(k, enc v)]

/-- `set(a.keys()).isdisjoint(b.keys())`. -/
def disjointKeys (a b : Dict) : Bool :=
  a.all (fun kv => (dlookup kv.1 b).isNone)

/-- The tuple-id keys stored with the molecule, removed from the parameter
dictionary in `to_dict` (`['atoms', 'bonds', 'angles', 'propers',
'impropers']`). -/
def tuple_keys : List String :=
  ["atoms", "bonds", "angles", "propers", "impropers"]

/-- `param_keys` of `MolData.from_dict`. -/
def param_keys : List String :=
  ["bond_k", "bond_eq", "angle_k", "angle_eq", "proper_ks", "proper_phases",
   "improper_ks", "improper_phases"]

/-- `exclude_molecule_keys` of `MolData.from_dict`. -/
def exclude_molecule_keys : List String :=
  ["xyz", "mol_id", "pdb", "mapped_smiles", "smiles", "sequence"]
    ++ param_keys

/-- The per-force-field insertion loops of `to_dict`: for each entry, fail
with `Duplicate key` when the prefixed key is already present, else append
it. -/
def addDyn {β : Type} (pfx : String) (enc : β → Val) :
    List (String × β) → Dict → Except String Dict
  | [], d => Except.ok d
  | (n, v) :: rest, d =>
    if (dlookup (pfx ++ n) d).isSome then
      Except.error ("Duplicate key: " ++ pfx ++ n)
    else addDyn pfx enc rest (d ++ [(pfx ++ n, enc v)])

/-- The six unconditional entries `to_dict` writes first. -/
def fixedSeg (m : MolData) : Dict :=
  [("xyz", Val.vG m.xyz), ("energy", Val.vE m.energy),
   ("gradient", Val.vG m.gradient), ("energy_ref", Val.vE m.energy_ref),
   ("gradient_ref", Val.vG m.gradient_ref), ("mol_id", Val.vS m.mol_id)]

/-- The six optional entries (strings and improper references). -/
def optChain (m : MolData) : Dict :=
  optSeg "mapped_smiles" Val.vS m.mapped_smiles
  ++ (optSeg "pdb" Val.vS m.pdb
  ++ (optSeg "smiles" Val.vS m.smiles
  ++ (optSeg "sequence" Val.vS m.sequence
  ++ (optSeg "improper_energy_ref" Val.vE m.improper_energy_ref
  ++ optSeg "improper_gradient_ref" Val.vG m.improper_gradient_ref))))

/-- The fixed and optional entries written by `to_dict` before the
molecule's dictionary is merged. -/
def baseSeg (m : MolData) : Dict := fixedSeg m ++ optChain m

/-- The parameter dictionary with the tuple keys removed (those are stored
with the molecule). -/
def paramSeg (m : MolData) : Dict :=
  (m.classical_parameters.to_dict).filter
    (fun kv => decide (kv.1 ∉ tuple_keys))

/-- `MolData.to_dict`: fixed entries, optional strings and improper
references, the molecule's dictionary (disjointness asserted), the
parameter dictionary without the tuple keys (overlap raises `ValueError`),
then the four dynamic per-force-field groups with duplicate-key checks. -/
def MolData.to_dict (m : MolData) : Except String Dict :=
  let base := baseSeg m
  let moldict := m.molecule.to_dict
  if ¬ disjointKeys moldict base then
    Except.error "Molecule and MolData have overlapping keys."
  else
    let paramdict := paramSeg m
    if ¬ disjointKeys paramdict (base ++ moldict) then
      Except.error "Parameter keys and array keys overlap"
    else do
      let d3 ← addDyn "energy_" Val.vE m.ff_energy
        (base ++ moldict ++ paramdict)
      let d4 ← addDyn "gradient_" Val.vG m.ff_gradient d3
      let d5 ← addDyn "nonbonded_energy_" Val.vE m.ff_nonbonded_energy d4
      addDyn "nonbonded_gradient_" Val.vG m.ff_nonbonded_gradient d5

/-- `array_dict.get(k, None)` expecting a 0-d string array when present. -/
def getOptStr (d : Dict) (k : String) : Except String (Option String) :=
  match dlookup k d with
  | none => Except.ok none
  | some v => (asS v).map some

/-- `array_dict.get(k, None)` expecting a 1-d float array when present. -/
def getOptE (d : Dict) (k : String) : Except String (Option (List ℚ)) :=
  match dlookup k d with
  | none => Except.ok none
  | some v => (asE v).map some

/-- `array_dict.get(k, None)` expecting a gradient array when present. -/
def getOptG (d : Dict) (k : String) : Except String (Option Grad) :=
  match dlookup k d with
  | none => Except.ok none
  | some v => (asG v).map some

/-- One dynamic-group dict comprehension of `from_dict`: keep the keys
selected by `keep`, strip them with `strip`, decode the values. -/
def parseDyn {β : Type} (keep : String → Bool) (strip : String → String)
    (dec : Val → Except String β) :
    Dict → Except String (List (String × β))
  | [] => Except.ok []
  | (k, v) :: rest =>
    if keep k then do
      let b ← dec v
      let r ← parseDyn keep strip dec rest
      Except.ok ((strip k, b) :: r)
    else parseDyn keep strip dec rest

/-- The key filter of the molecule sub-dictionary in `from_dict`: not an
excluded key, and containing neither `'energy'` nor `'gradient'` as a
substring. -/
def is_mol_key (k : String) : Bool :=
  decide (k ∉ exclude_molecule_keys) && ! pyContains k "energy"
    && ! pyContains k "gradient"

/-- The key filter of the parameter sub-dictionary in `from_dict`. -/
def is_param_key (k : String) : Bool :=
  decide (k ∈ param_keys) || decide (k ∈ tuple_keys)

/-- `k.startswith('energy_') and not k == 'energy_ref'`. -/
def is_ffE_key (k : String) : Bool :=
  pyStartsWith k "energy_" && decide (k ≠ "energy_ref")

/-- `k.startswith('gradient_') and not k == 'gradient_ref'`. -/
def is_ffG_key (k : String) : Bool :=
  pyStartsWith k "gradient_" && decide (k ≠ "gradient_ref")

/-- `k.startswith('nonbonded_energy_')`. -/
def is_nbE_key (k : String) : Bool := pyStartsWith k "nonbonded_energy_"

/-- `k.startswith('nonbonded_gradient_')`. -/
def is_nbG_key (k : String) : Bool := pyStartsWith k "nonbonded_gradient_"

/-- `MolData.from_dict`: reads the fixed and optional entries, filters the
molecule sub-dictionary (dropping excluded keys and any key containing
`'energy'` or `'gradient'`), the parameter sub-dictionary
(`param_keys`/`tuple_keys`), parses the four dynamic groups by their key
prefixes, and runs the dataclass constructor. -/
def MolData.from_dict (d : Dict) : Except String MolData := do
  let xyz ← asG (← getKey d "xyz")
  let energy ← asE (← getKey d "energy")
  let gradient ← asG (← getKey d "gradient")
  let energy_ref ← asE (← getKey d "energy_ref")
  let gradient_ref ← asG (← getKey d "gradient_ref")
  let mol_id ← asS (← getKey d "mol_id")
  let mapped_smiles ← getOptStr d "mapped_smiles"
  let pdb ← getOptStr d "pdb"
  let smiles ← getOptStr d "smiles"
  let sequence ← getOptStr d "sequence"
  let improper_energy_ref ← getOptE d "improper_energy_ref"
  let improper_gradient_ref ← getOptG d "improper_gradient_ref"
  let molecule_dict := d.filter (fun kv => is_mol_key kv.1)
  let molecule ← Molecule.from_dict molecule_dict
  let param_dict := d.filter (fun kv => is_param_key kv.1)
  let classical_parameters ← Parameters.from_dict param_dict
  let ff_energy ← parseDyn is_ffE_key pySplit1 asE d
  let ff_gradient ← parseDyn is_ffG_key pySplit1 asG d
  let ff_nonbonded_energy ← parseDyn is_nbE_key pySplit2 asE d
  let ff_nonbonded_gradient ← parseDyn is_nbG_key pySplit2 asG d
  MolData.make
    { molecule := molecule, xyz := xyz, energy := energy,
      gradient := gradient, energy_ref := energy_ref,
      gradient_ref := gradient_ref, mol_id := some mol_id,
      classical_parameters := some classical_parameters,
      sequence := sequence, smiles := smiles,
      improper_energy_ref := improper_energy_ref,
      improper_gradient_ref := improper_gradient_ref,
      mapped_smiles := mapped_smiles, pdb := pdb,
      ff_nonbonded_energy := some ff_nonbonded_energy,
      ff_nonbonded_gradient := some ff_nonbonded_gradient,
      ff_energy := some ff_energy, ff_gradient := some ff_gradient }

/-! ## Association-list lemmas -/

theorem alookup_append_of_none {β : Type} {k : String}
    {l1 : List (String × β)} (l2 : List (String × β))
    (h : alookup k l1 = none) : alookup k (l1 ++ l2) = alookup k l2 := by
  induction l1 with
  | nil => rfl
  | cons kv rest ih =>
    simp only [alookup, List.cons_append] at h ⊢
    by_cases hk : kv.1 = k
    · rw [if_pos hk] at h
      cases h
    · rw [if_neg hk] at h ⊢
      exact ih h

theorem alookup_append_of_some {β : Type} {k : String} {v : β}
    {l1 : List (String × β)} (l2 : List (String × β))
    (h : alookup k l1 = some v) : alookup k (l1 ++ l2) = some v := by
  induction l1 with
  | nil => cases h
  | cons kv rest ih =>
    simp only [alookup, List.cons_append] at h ⊢
    by_cases hk : kv.1 = k
    · rwa [if_pos hk] at h ⊢
    · rw [if_neg hk] at h ⊢
      exact ih h

theorem alookup_append_none_iff {β : Type} {k : String}
    {l1 l2 : List (String × β)} :
    alookup k (l1 ++ l2) = none ↔
      alookup k l1 = none ∧ alookup k l2 = none := by
  induction l1 with
  | nil => simp [alookup]
  | cons kv rest ih =>
    simp only [alookup, List.cons_append]
    by_cases hk : kv.1 = k
    · simp [if_pos hk]
    · simp [if_neg hk, ih]

theorem alookup_singleton_self {β : Type} (k : String) (v : β) :
    alookup k [(k, v)] = some v := by simp [alookup]

/-! ## Constructor lemmas -/

theorem make_ok_elim {a : MolDataArgs} {m : MolData}
    (h : MolData.make a = Except.ok m) :
    m = MolData.build a ∧ (MolData.build a).validate = Except.ok () := by
  simp only [MolData.make] at h
  rcases hval : (MolData.build a).validate with e | u
  · rw [hval] at h
    simp [Except.map] at h
  · rw [hval] at h
    simp only [Except.map] at h
    exact ⟨(Except.ok.inj h).symm, by cases u; rfl⟩

theorem make_ok_intro {a : MolDataArgs}
    (h : (MolData.build a).validate = Except.ok ()) :
    MolData.make a = Except.ok (MolData.build a) := by
  simp only [MolData.make]
  rw [h]
  rfl

theorem validate_ok_iff (m : MolData) :
    m.validate = Except.ok () ↔
      (∀ kv ∈ m.ff_energy, kv.2.length = m.energy.length) ∧
      (∀ kv ∈ m.ff_gradient, gradShape kv.2 = gradShape m.gradient) ∧
      m.mol_id ≠ "None" := by
  unfold MolData.validate
  constructor
  · intro h
    split at h
    · split at h
      · split at h
        · cases h
        · rename_i h1 h2 h3
          exact ⟨by simpa using List.all_eq_true.1 h1,
            by simpa using List.all_eq_true.1 h2, h3⟩
      · cases h
    · cases h
  · rintro ⟨h1, h2, h3⟩
    rw [if_pos (List.all_eq_true.2 (by simpa using h1)),
      if_pos (List.all_eq_true.2 (by simpa using h2)), if_neg h3]

/- Projection lemmas for the record produced by `__post_init__`. -/

theorem build_ff_energy (a : MolDataArgs) :
    (MolData.build a).ff_energy =
      if (alookup "qm" (a.ff_energy.getD [])).isSome then a.ff_energy.getD []
      else a.ff_energy.getD [] ++ [("qm", a.energy)] := rfl

theorem build_ff_gradient (a : MolDataArgs) :
    (MolData.build a).ff_gradient =
      if (alookup "qm" (a.ff_gradient.getD [])).isSome then
        a.ff_gradient.getD []
      else a.ff_gradient.getD [] ++ [("qm", a.gradient)] := rfl

/-- `__post_init__` guarantees the `'qm'` keys. -/
theorem build_qm_present (a : MolDataArgs) :
    (alookup "qm" (MolData.build a).ff_energy).isSome ∧
    (alookup "qm" (MolData.build a).ff_gradient).isSome := by
  constructor
  · rw [build_ff_energy]
    by_cases h : (alookup "qm" (a.ff_energy.getD [])).isSome
    · rwa [if_pos h]
    · rw [if_neg h,
        alookup_append_of_none _ (Option.not_isSome_iff_eq_none.1 h),
        alookup_singleton_self]
      rfl
  · rw [build_ff_gradient]
    by_cases h : (alookup "qm" (a.ff_gradient.getD [])).isSome
    · rwa [if_pos h]
    · rw [if_neg h,
        alookup_append_of_none _ (Option.not_isSome_iff_eq_none.1 h),
        alookup_singleton_self]
      rfl

/-! ## Mean-centering arithmetic -/

theorem sum_map_sub (l : List ℚ) (c : ℚ) :
    (l.map (fun x => x - c)).sum = l.sum - l.length * c := by
  induction l with
  | nil => simp
  | cons x xs ih =>
    simp only [List.map_cons, List.sum_cons, ih, List.length_cons]
    push_cast
    ring

theorem sum_centerList (l : List ℚ) : (centerList l).sum = 0 := by
  unfold centerList qmean
  rw [sum_map_sub]
  by_cases h : l.length = 0
  · rw [List.length_eq_zero.1 h]
    simp
  · have hq : (l.length : ℚ) ≠ 0 := by exact_mod_cast h
    field_simp

theorem qmean_centerList (l : List ℚ) : qmean (centerList l) = 0 := by
  unfold qmean
  rw [sum_centerList, zero_div]

/-- A molecule with no atoms, used for concrete instances. -/
def emptyMolecule : Molecule := ⟨[], [], [], [], [], []⟩

/-- C3: the reference energy stored by `from_arrays` is the QM energy minus
the nonbonded energy, mean-centered per molecule, so its mean vanishes
(exactly, over `ℚ`); on `energy_qm = [-10, -8]` and nonbonded energy
`[-5, -5]` the stored `energy_ref` is `[-1, 1]`. -/
theorem c3_reference_energy :
    (∀ (molecule : Molecule) (xyz : Grad)
      (energy nonbonded_energy : List ℚ)
      (gradient nonbonded_gradient : Option Grad)
      (smiles sequence mol_id : Option String)
      (ffe : Option (List ℚ)) (ffg : Option Grad) (m : MolData),
      MolData.from_arrays molecule xyz energy nonbonded_energy gradient
        nonbonded_gradient smiles sequence mol_id ffe ffg = Except.ok m →
      m.energy_ref = centerList (listSub energy nonbonded_energy) ∧
      qmean m.energy_ref = 0) ∧
    (MolData.from_arrays emptyMolecule [] [-10, -8] [-5, -5]).map
      (fun m => m.energy_ref) = Except.ok [-1, 1] := by
  constructor
  · intro molecule xyz energy nonbonded_energy gradient nonbonded_gradient
      smiles sequence mol_id ffe ffg m h
    unfold MolData.from_arrays at h
    have hre : m.energy_ref = centerList (listSub energy nonbonded_energy) := by
      rcases gradient with _ | g <;> rcases nonbonded_gradient with _ | ng
      · exact congrArg MolData.energy_ref (make_ok_elim h).1
      · exact congrArg MolData.energy_ref (make_ok_elim h).1
      · cases h
      · exact congrArg MolData.energy_ref (make_ok_elim h).1
    exact ⟨hre, by rw [hre, qmean_centerList]⟩
  · have hval : centerList (listSub [-10, -8] [-5, -5]) = [-1, 1] := by
      norm_num [centerList, listSub, qmean]
    rw [← hval]
    rfl

/-- Witness for C3 at the spec's Scenario C input. -/
def c3args : MolDataArgs :=
  { molecule := emptyMolecule, xyz := [], energy := [-10, -8],
    gradient := zerosLike [],
    energy_ref := centerList (listSub [-10, -8] [-5, -5]),
    gradient_ref := gradSub (zerosLike []) (zerosLike []),
    mol_id := some "",
    ff_nonbonded_energy := some [("reference_ff", [-5, -5])],
    ff_nonbonded_gradient := some [("reference_ff", zerosLike [])] }

theorem c3_reference_energy_witness :
    (MolData.build c3args).energy_ref =
      centerList (listSub [-10, -8] [-5, -5]) ∧
    qmean (MolData.build c3args).energy_ref = 0 :=
  c3_reference_energy.1 emptyMolecule [] [-10, -8] [-5, -5] none none
    none none none none none (MolData.build c3args) (by rfl)

/-- C9: when a QM gradient and a nonbonded gradient are supplied, the stored
reference gradient is exactly their elementwise difference — no
mean-centering is applied to gradients. -/
theorem c9_reference_gradient :
    ∀ (molecule : Molecule) (xyz : Grad)
      (energy nonbonded_energy : List ℚ) (G Gnb : Grad)
      (smiles sequence mol_id : Option String)
      (ffe : Option (List ℚ)) (ffg : Option Grad) (m : MolData),
      MolData.from_arrays molecule xyz energy nonbonded_energy (some G)
        (some Gnb) smiles sequence mol_id ffe ffg = Except.ok m →
      m.gradient_ref = gradSub G Gnb ∧ m.gradient = G := by
  intro molecule xyz energy nonbonded_energy G Gnb smiles sequence mol_id
    ffe ffg m h
  unfold MolData.from_arrays at h
  exact ⟨congrArg MolData.gradient_ref (make_ok_elim h).1,
    congrArg MolData.gradient (make_ok_elim h).1⟩

/-- Witness for C9. -/
def c9args : MolDataArgs :=
  { molecule := emptyMolecule, xyz := [[(0, 0, 0)]], energy := [0],
    gradient := [[(1, 2, 3)]],
    energy_ref := centerList (listSub [0] [0]),
    gradient_ref := gradSub [[(1, 2, 3)]] [[(1, 1, 1)]],
    mol_id := some "",
    ff_nonbonded_energy := some [("reference_ff", [0])],
    ff_nonbonded_gradient := some [("reference_ff", [[(1, 1, 1)]])] }

theorem c9_reference_gradient_witness :
    (MolData.build c9args).gradient_ref = gradSub [[(1, 2, 3)]] [[(1, 1, 1)]] ∧
    (MolData.build c9args).gradient = [[(1, 2, 3)]] :=
  c9_reference_gradient emptyMolecule [[(0, 0, 0)]] [0] [0] [[(1, 2, 3)]]
    [[(1, 1, 1)]] none none none none none (MolData.build c9args) (by rfl)

/-- C4 counterexample: `from_arrays` with no `mol_id`, `smiles` or
`sequence` SUCCEEDS and stores the empty string as `mol_id` — an instance
with an empty identity is produced rather than an error being raised, and
the claimed invariant "mol_id is a non-empty string" fails. -/
theorem c4_empty_mol_id_counterexample :
    (MolData.from_arrays emptyMolecule [] [] []).map (fun m => m.mol_id) =
      Except.ok "" := by rfl

/-- C4 (amended): `mol_id` of every successfully constructed MolData is a
string different from `'None'`, and construction with a `mol_id` argument
that stringifies to `'None'` (in particular a missing one, since
`str(None) == 'None'`) always fails — but the empty string is accepted, and
`from_arrays` defaults to it when no identity source is given. -/
theorem c4_mol_id_amended :
    (∀ (a : MolDataArgs) (m : MolData),
      MolData.make a = Except.ok m → m.mol_id ≠ "None") ∧
    (∀ a : MolDataArgs, pyStr a.mol_id = "None" →
      (MolData.make a).isOk = false) := by
  constructor
  · intro a m h
    obtain ⟨rfl, hval⟩ := make_ok_elim h
    exact ((validate_ok_iff _).1 hval).2.2
  · intro a h
    simp only [MolData.make]
    rcases hval : (MolData.build a).validate with e | u
    · rfl
    · exfalso
      cases u
      have hm : (MolData.build a).mol_id = "None" := by
        show pyStr a.mol_id = "None"
        exact h
      exact ((validate_ok_iff _).1 hval).2.2 hm

/-- Witness for the amended C4: a successful construction has
`mol_id ≠ 'None'`, and a `None`-like `mol_id` is rejected. -/
def c4args : MolDataArgs :=
  { molecule := emptyMolecule, xyz := [], energy := [], gradient := [],
    energy_ref := [], gradient_ref := [], mol_id := some "x" }

theorem c4_mol_id_witness :
    (MolData.build c4args).mol_id ≠ "None" ∧
    (MolData.make { c4args with mol_id := none }).isOk = false :=
  ⟨c4_mol_id_amended.1 c4args (MolData.build c4args) (by rfl),
   c4_mol_id_amended.2 { c4args with mol_id := none } (by rfl)⟩

/-! ## Serialization structure lemmas -/

theorem alookup_eq_none_iff {β : Type} (k : String) (l : List (String × β)) :
    alookup k l = none ↔ k ∉ l.map Prod.fst := by
  induction l with
  | nil => simp [alookup]
  | cons kv rest ih =>
    simp only [alookup, List.map_cons, List.mem_cons]
    by_cases hk : kv.1 = k
    · simp [hk]
    · rw [if_neg hk, ih]
      constructor
      · intro h hmem
        rcases hmem with h1 | h1
        · exact hk h1.symm
        · exact h h1
      · intro h h1
        exact h (Or.inr h1)

theorem disjointKeys_true_iff (a b : Dict) :
    disjointKeys a b = true ↔ ∀ kv ∈ a, dlookup kv.1 b = none := by
  unfold disjointKeys
  rw [List.all_eq_true]
  constructor <;> intro h kv hkv
  · exact Option.isNone_iff_eq_none.1 (h kv hkv)
  · rw [h kv hkv]
    rfl

/-- The encoded segment one `addDyn` group appends. -/
def dynSeg {β : Type} (pfx : String) (enc : β → Val)
    (entries : List (String × β)) : Dict :=
  entries.map (fun nv => (pfx ++ nv.1, enc nv.2))

theorem addDyn_ok_elim {β : Type} {pfx : String} {enc : β → Val}
    {entries : List (String × β)} {d d' : Dict}
    (h : addDyn pfx enc entries d = Except.ok d') :
    d' = d ++ dynSeg pfx enc entries ∧
    (∀ nv ∈ entries, dlookup (pfx ++ nv.1) d = none) ∧
    (entries.map (fun nv => pfx ++ nv.1)).Nodup := by
  induction entries generalizing d with
  | nil =>
    simp only [addDyn] at h
    exact ⟨by simpa [dynSeg] using (Except.ok.inj h).symm, by simp, by simp⟩
  | cons nv rest ih =>
    simp only [addDyn] at h
    split at h
    · cases h
    · rename_i hguard
      obtain ⟨hshape, hfresh, hnodup⟩ := ih h
      have hfreshd : ∀ x ∈ rest, dlookup (pfx ++ x.1) d = none := by
        intro x hx
        exact (alookup_append_none_iff.1 (hfresh x hx)).1
      refine ⟨?_, ?_, ?_⟩
      · rw [hshape]
        simp [dynSeg, List.append_assoc]
      · intro x hx
        rcases List.mem_cons.1 hx with rfl | hx'
        · exact Option.not_isSome_iff_eq_none.1 (by simpa using hguard)
        · exact hfreshd x hx'
      · rw [List.map_cons, List.nodup_cons]
        refine ⟨?_, hnodup⟩
        intro hmem
        rcases List.mem_map.1 hmem with ⟨x, hx, hkey⟩
        have hnone := hfresh x hx
        rw [hkey] at hnone
        have h2 := (alookup_append_none_iff.1 hnone).2
        rw [alookup_singleton_self] at h2
        cases h2

theorem except_bind_ok {α β : Type} {x : Except String α}
    {f : α → Except String β} {b : β} :
    (x >>= f) = Except.ok b ↔
      ∃ a, x = Except.ok a ∧ f a = Except.ok b := by
  cases x <;> simp [Bind.bind, Except.bind]

/-- The flat dictionary `to_dict` produces when no key collides. -/
def fullDict (m : MolData) : Dict :=
  baseSeg m ++ m.molecule.to_dict ++ paramSeg m
    ++ dynSeg "energy_" Val.vE m.ff_energy
    ++ dynSeg "gradient_" Val.vG m.ff_gradient
    ++ dynSeg "nonbonded_energy_" Val.vE m.ff_nonbonded_energy
    ++ dynSeg "nonbonded_gradient_" Val.vG m.ff_nonbonded_gradient

/-- All keys `to_dict` exports (Molecule's, Parameters' and the
MolData-level fixed and per-force-field keys), in export order. -/
def exportedKeys (m : MolData) : List String := (fullDict m).map Prod.fst

/-- Success of `to_dict` pins down the dictionary's shape, the freshness of
every dynamic key against everything exported before its group, and
duplicate-freeness inside each dynamic group. -/
theorem to_dict_ok_elim {m : MolData} {d : Dict}
    (h : MolData.to_dict m = Except.ok d) :
    d = fullDict m ∧
    disjointKeys m.molecule.to_dict (baseSeg m) = true ∧
    disjointKeys (paramSeg m) (baseSeg m ++ m.molecule.to_dict) = true ∧
    (∀ nv ∈ m.ff_energy, dlookup ("energy_" ++ nv.1)
      (baseSeg m ++ m.molecule.to_dict ++ paramSeg m) = none) ∧
    (m.ff_energy.map (fun nv => "energy_" ++ nv.1)).Nodup ∧
    (∀ nv ∈ m.ff_gradient, dlookup ("gradient_" ++ nv.1)
      (baseSeg m ++ m.molecule.to_dict ++ paramSeg m
        ++ dynSeg "energy_" Val.vE m.ff_energy) = none) ∧
    (m.ff_gradient.map (fun nv => "gradient_" ++ nv.1)).Nodup ∧
    (∀ nv ∈ m.ff_nonbonded_energy, dlookup ("nonbonded_energy_" ++ nv.1)
      (baseSeg m ++ m.molecule.to_dict ++ paramSeg m
        ++ dynSeg "energy_" Val.vE m.ff_energy
        ++ dynSeg "gradient_" Val.vG m.ff_gradient) = none) ∧
    (m.ff_nonbonded_energy.map
      (fun nv => "nonbonded_energy_" ++ nv.1)).Nodup ∧
    (∀ nv ∈ m.ff_nonbonded_gradient,
      dlookup ("nonbonded_gradient_" ++ nv.1)
      (baseSeg m ++ m.molecule.to_dict ++ paramSeg m
        ++ dynSeg "energy_" Val.vE m.ff_energy
        ++ dynSeg "gradient_" Val.vG m.ff_gradient
        ++ dynSeg "nonbonded_energy_" Val.vE m.ff_nonbonded_energy)
        = none) ∧
    (m.ff_nonbonded_gradient.map
      (fun nv => "nonbonded_gradient_" ++ nv.1)).Nodup := by
  simp only [MolData.to_dict] at h
  split at h
  · cases h
  · rename_i hdisj1
    split at h
    · cases h
    · rename_i hdisj2
      rw [Bool.not_eq_true] at hdisj1 hdisj2
      rw [Bool.not_eq_false] at hdisj1 hdisj2
      obtain ⟨d3, h3, h'⟩ := except_bind_ok.1 h
      obtain ⟨d4, h4, h''⟩ := except_bind_ok.1 h'
      obtain ⟨d5, h5, h6⟩ := except_bind_ok.1 h''
      obtain ⟨e3, f3, n3⟩ := addDyn_ok_elim h3
      subst e3
      obtain ⟨e4, f4, n4⟩ := addDyn_ok_elim h4
      subst e4
      obtain ⟨e5, f5, n5⟩ := addDyn_ok_elim h5
      subst e5
      obtain ⟨e6, f6, n6⟩ := addDyn_ok_elim h6
      subst e6
      exact ⟨by simp [fullDict, List.append_assoc], hdisj1, hdisj2, f3, n3,
        f4, n4, f5, n5, f6, n6⟩

theorem nodup_keys_append {A B : Dict} (hA : (A.map Prod.fst).Nodup)
    (hB : (B.map Prod.fst).Nodup)
    (hfresh : ∀ kv ∈ B, dlookup kv.1 A = none) :
    ((A ++ B).map Prod.fst).Nodup := by
  rw [List.map_append, List.nodup_append]
  refine ⟨hA, hB, ?_⟩
  intro k hkA hkB
  rcases List.mem_map.1 hkB with ⟨kv, hkv, rfl⟩
  exact ((alookup_eq_none_iff _ _).1 (hfresh kv hkv)) hkA

/-- The key list of an optional segment (value-independent). -/
def optKeys {β : Type} (k : String) : Option β → List String
  | none => []
  | some _ => [k]

theorem optSeg_keys {β : Type} (k : String) (enc : β → Val)
    (o : Option β) : (optSeg k enc o).map Prod.fst = optKeys k o := by
  cases o <;> simp [optSeg, optKeys]

theorem baseSeg_keys (m : MolData) :
    (baseSeg m).map Prod.fst =
      ["xyz", "energy", "gradient", "energy_ref", "gradient_ref", "mol_id"]
      ++ optKeys "mapped_smiles" m.mapped_smiles
      ++ optKeys "pdb" m.pdb
      ++ optKeys "smiles" m.smiles
      ++ optKeys "sequence" m.sequence
      ++ optKeys "improper_energy_ref" m.improper_energy_ref
      ++ optKeys "improper_gradient_ref" m.improper_gradient_ref := by
  simp [baseSeg, fixedSeg, optChain, optSeg_keys, List.append_assoc]

theorem baseSeg_keys_nodup (m : MolData) :
    ((baseSeg m).map Prod.fst).Nodup := by
  rw [baseSeg_keys]
  cases m.mapped_smiles <;> cases m.pdb <;> cases m.smiles <;>
    cases m.sequence <;> cases m.improper_energy_ref <;>
      cases m.improper_gradient_ref <;>
        simp only [optKeys] <;> decide

theorem molecule_to_dict_keys (mol : Molecule) :
    (mol.to_dict).map Prod.fst =
      ["atoms", "bonds", "angles", "propers", "impropers",
       "partial_charges"] := by
  simp [Molecule.to_dict]

/-- The parameter segment written by `to_dict`: exactly the eight value
arrays, the tuple keys having been filtered out. -/
theorem paramSeg_explicit (m : MolData) :
    paramSeg m =
      [("bond_k", Val.vE m.classical_parameters.bond_k),
       ("bond_eq", Val.vE m.classical_parameters.bond_eq),
       ("angle_k", Val.vE m.classical_parameters.angle_k),
       ("angle_eq", Val.vE m.classical_parameters.angle_eq),
       ("proper_ks", Val.vM m.classical_parameters.proper_ks),
       ("proper_phases", Val.vM m.classical_parameters.proper_phases),
       ("improper_ks", Val.vM m.classical_parameters.improper_ks),
       ("improper_phases", Val.vM m.classical_parameters.improper_phases)]
    := rfl

theorem paramSeg_keys (m : MolData) :
    (paramSeg m).map Prod.fst = param_keys := by
  rw [paramSeg_explicit]
  simp [param_keys]

theorem dynSeg_keys {β : Type} (pfx : String) (enc : β → Val)
    (entries : List (String × β)) :
    (dynSeg pfx enc entries).map Prod.fst =
      entries.map (fun nv => pfx ++ nv.1) := by
  simp [dynSeg]

/-- If `to_dict` succeeds, all exported keys are pairwise distinct. -/
theorem to_dict_ok_keys_nodup {m : MolData} {d : Dict}
    (h : MolData.to_dict m = Except.ok d) : (exportedKeys m).Nodup := by
  obtain ⟨_, hdisj1, hdisj2, f3, n3, f4, n4, f5, n5, f6, n6⟩ :=
    to_dict_ok_elim h
  have hbase := baseSeg_keys_nodup m
  have hmol : ((m.molecule.to_dict).map Prod.fst).Nodup := by
    rw [molecule_to_dict_keys]
    decide
  have hpar : ((paramSeg m).map Prod.fst).Nodup := by
    rw [paramSeg_keys]
    decide
  have h1 : ((baseSeg m ++ m.molecule.to_dict).map Prod.fst).Nodup :=
    nodup_keys_append hbase hmol ((disjointKeys_true_iff _ _).1 hdisj1)
  have h2 : ((baseSeg m ++ m.molecule.to_dict ++ paramSeg m).map
      Prod.fst).Nodup :=
    nodup_keys_append h1 hpar ((disjointKeys_true_iff _ _).1 hdisj2)
  have h3 : (((baseSeg m ++ m.molecule.to_dict ++ paramSeg m
      ++ dynSeg "energy_" Val.vE m.ff_energy).map Prod.fst)).Nodup := by
    refine nodup_keys_append h2 ?_ ?_
    · rw [dynSeg_keys]
      exact n3
    · intro kv hkv
      rcases List.mem_map.1 hkv with ⟨nv, hnv, rfl⟩
      exact f3 nv hnv
  have h4 : (((baseSeg m ++ m.molecule.to_dict ++ paramSeg m
      ++ dynSeg "energy_" Val.vE m.ff_energy
      ++ dynSeg "gradient_" Val.vG m.ff_gradient).map Prod.fst)).Nodup := by
    refine nodup_keys_append h3 ?_ ?_
    · rw [dynSeg_keys]
      exact n4
    · intro kv hkv
      rcases List.mem_map.1 hkv with ⟨nv, hnv, rfl⟩
      exact f4 nv hnv
  have h5 : (((baseSeg m ++ m.molecule.to_dict ++ paramSeg m
      ++ dynSeg "energy_" Val.vE m.ff_energy
      ++ dynSeg "gradient_" Val.vG m.ff_gradient
      ++ dynSeg "nonbonded_energy_" Val.vE m.ff_nonbonded_energy).map
        Prod.fst)).Nodup := by
    refine nodup_keys_append h4 ?_ ?_
    · rw [dynSeg_keys]
      exact n5
    · intro kv hkv
      rcases List.mem_map.1 hkv with ⟨nv, hnv, rfl⟩
      exact f5 nv hnv
  unfold exportedKeys fullDict
  refine nodup_keys_append h5 ?_ ?_
  · rw [dynSeg_keys]
    exact n6
  · intro kv hkv
    rcases List.mem_map.1 hkv with ⟨nv, hnv, rfl⟩
    exact f6 nv hnv

/-- C7: whenever the exported key namespaces collide — any key exported
twice across the Molecule, Parameters, MolData-level or per-force-field
groups — `to_dict` raises an error instead of silently overwriting the
colliding key. -/
theorem c7_key_collision_error (m : MolData)
    (h : ¬ (exportedKeys m).Nodup) :
    (MolData.to_dict m).isOk = false := by
  rcases hok : MolData.to_dict m with e | d
  · rfl
  · exact absurd (to_dict_ok_keys_nodup hok) h

/-- Witness for C7: a force-field name `'ref'` generates the key
`'energy_ref'`, which collides with the reference-energy key; `to_dict`
errors out. -/
def c7mol : MolData :=
  MolData.build
    { molecule := emptyMolecule, xyz := [], energy := [], gradient := [],
      energy_ref := [], gradient_ref := [], mol_id := some "x",
      classical_parameters := some (Parameters.get_nan_params emptyMolecule),
      ff_energy := some [("ref", [])] }

theorem c7_key_collision_witness :
    ¬ (exportedKeys c7mol).Nodup ∧ (MolData.to_dict c7mol).isOk = false :=
  ⟨by decide, c7_key_collision_error c7mol (by decide)⟩

/-! ## Lookup walks through the serialized dictionary -/

theorem alookup_some_mem {β : Type} {k : String} {v : β}
    {l : List (String × β)} (h : alookup k l = some v) : (k, v) ∈ l := by
  induction l with
  | nil => cases h
  | cons kv rest ih =>
    simp only [alookup] at h
    by_cases hk : kv.1 = k
    · rw [if_pos hk] at h
      have hkv : kv = (k, v) := by
        rw [Prod.ext_iff]
        exact ⟨hk, Option.some.inj h⟩
      rw [hkv]
      exact List.mem_cons_self _ _
    · rw [if_neg hk] at h
      exact List.mem_cons_of_mem kv (ih h)

theorem strAppend_left_cancel {p a b : String} (h : p ++ a = p ++ b) :
    a = b := by
  have hd := congrArg String.data h
  simp only [String.data_append] at hd
  exact String.ext (List.append_cancel_left hd)

/-- Looking up a freshly prefixed key inside its own dynamic segment. -/
theorem alookup_dynSeg_self {β : Type} (pfx n0 : String) (enc : β → Val)
    (entries : List (String × β)) (rest : Dict) :
    alookup (pfx ++ n0) (dynSeg pfx enc entries ++ rest) =
      ((alookup n0 entries).map enc).or
        (alookup (pfx ++ n0) rest) := by
  induction entries with
  | nil => simp [dynSeg, alookup]
  | cons nv r ih =>
    by_cases hn : nv.1 = n0
    · subst hn
      simp [dynSeg, alookup]
    · have hkey : ¬ (pfx ++ nv.1 = pfx ++ n0) :=
        fun hc => hn (strAppend_left_cancel hc)
    -- skip the head on the left; skip the head of the plain lookup too
      simp only [dynSeg, List.map_cons, List.cons_append, alookup,
        if_neg hkey]
      simpa [dynSeg, alookup, hn] using ih

/-- `fullDict` with all appends nested to the right, the convenient shape
for stepwise lookups. -/
theorem fullDict_assoc (m : MolData) :
    fullDict m = baseSeg m ++ (m.molecule.to_dict ++ (paramSeg m
      ++ (dynSeg "energy_" Val.vE m.ff_energy
      ++ (dynSeg "gradient_" Val.vG m.ff_gradient
      ++ (dynSeg "nonbonded_energy_" Val.vE m.ff_nonbonded_energy
      ++ dynSeg "nonbonded_gradient_" Val.vG m.ff_nonbonded_gradient))))) :=
  by simp [fullDict, List.append_assoc]

/-- A key that no prefixed entry can produce skips a dynamic segment. -/
theorem alookup_dynSeg_skip {β : Type} {k pfx : String}
    (h : ∀ n : String, pfx ++ n ≠ k) (enc : β → Val)
    (entries : List (String × β)) (rest : Dict) :
    alookup k (dynSeg pfx enc entries ++ rest) = alookup k rest := by
  induction entries with
  | nil => simp [dynSeg]
  | cons nv r ih =>
    simp only [dynSeg, List.map_cons, List.cons_append, alookup,
      if_neg (h nv.1)]
    simpa [dynSeg] using ih

/-- C10 counterexample: a MolData constructed with a pre-supplied
`ff_energy['qm']` entry of matching shape but different content is accepted,
and `'qm'` then maps to that entry, not to the primary QM energy array —
so "the key 'qm' maps to the primary QM energy array" fails. -/
def c10args : MolDataArgs :=
  { molecule := emptyMolecule, xyz := [], energy := [1], gradient := [],
    energy_ref := [], gradient_ref := [], mol_id := some "x",
    classical_parameters := some (Parameters.get_nan_params emptyMolecule),
    ff_energy := some [("qm", [0])] }

theorem c10_qm_counterexample :
    MolData.make c10args = Except.ok (MolData.build c10args) ∧
    alookup "qm" (MolData.build c10args).ff_energy = some [0] ∧
    (MolData.build c10args).energy = [1] ∧
    some [(0 : ℚ)] ≠ some [(1 : ℚ)] :=
  ⟨rfl, rfl, rfl, by decide⟩

/-- C10 (amended): every successfully constructed MolData has the key
`'qm'` in both `ff_energy` and `ff_gradient`; when no `'qm'` entry was
supplied at construction it maps to the primary QM energy/gradient arrays,
and the serialized dictionary then always contains the keys `'energy_qm'`
and `'gradient_qm'`, with values equal to the `'energy'`/`'gradient'`
arrays under the same no-presupplied-entry condition. -/
theorem c10_qm_key_amended :
    ∀ (a : MolDataArgs) (m : MolData), MolData.make a = Except.ok m →
      ((alookup "qm" m.ff_energy).isSome ∧
        (alookup "qm" m.ff_gradient).isSome) ∧
      (alookup "qm" (a.ff_energy.getD []) = none →
        alookup "qm" m.ff_energy = some m.energy) ∧
      (alookup "qm" (a.ff_gradient.getD []) = none →
        alookup "qm" m.ff_gradient = some m.gradient) ∧
      (∀ d, MolData.to_dict m = Except.ok d →
        (dlookup "energy_qm" d).isSome ∧
        (dlookup "gradient_qm" d).isSome ∧
        (alookup "qm" (a.ff_energy.getD []) = none →
          dlookup "energy_qm" d = some (Val.vE m.energy)) ∧
        (alookup "qm" (a.ff_gradient.getD []) = none →
          dlookup "gradient_qm" d = some (Val.vG m.gradient))) := by
  intro a m hmk
  obtain ⟨rfl, _⟩ := make_ok_elim hmk
  have hqE : (alookup "qm" (MolData.build a).ff_energy).isSome :=
    (build_qm_present a).1
  have hqG : (alookup "qm" (MolData.build a).ff_gradient).isSome :=
    (build_qm_present a).2
  have habsE : alookup "qm" (a.ff_energy.getD []) = none →
      alookup "qm" (MolData.build a).ff_energy =
        some (MolData.build a).energy := by
    intro habs
    rw [build_ff_energy, if_neg (by simp [habs]),
      alookup_append_of_none _ habs, alookup_singleton_self]
    rfl
  have habsG : alookup "qm" (a.ff_gradient.getD []) = none →
      alookup "qm" (MolData.build a).ff_gradient =
        some (MolData.build a).gradient := by
    intro habs
    rw [build_ff_gradient, if_neg (by simp [habs]),
      alookup_append_of_none _ habs, alookup_singleton_self]
    rfl
  refine ⟨⟨hqE, hqG⟩, habsE, habsG, ?_⟩
  intro d hd
  obtain ⟨rfl, _, _, f3, _, f4, _, _, _, _, _⟩ := to_dict_ok_elim hd
  obtain ⟨eqm, heqm⟩ := Option.isSome_iff_exists.1 hqE
  obtain ⟨gqm, hgqm⟩ := Option.isSome_iff_exists.1 hqG
  have hmemE := alookup_some_mem heqm
  have hmemG := alookup_some_mem hgqm
  have hfE : alookup ("energy_" ++ "qm")
      (baseSeg (MolData.build a) ++ (MolData.build a).molecule.to_dict
        ++ paramSeg (MolData.build a)) = none := f3 _ hmemE
  have hfG : alookup ("gradient_" ++ "qm")
      (baseSeg (MolData.build a) ++ (MolData.build a).molecule.to_dict
        ++ paramSeg (MolData.build a)
        ++ dynSeg "energy_" Val.vE (MolData.build a).ff_energy) = none :=
    f4 _ hmemG
  obtain ⟨hb12, hbP⟩ := alookup_append_none_iff.1 hfE
  obtain ⟨hbB, hbM⟩ := alookup_append_none_iff.1 hb12
  obtain ⟨hg123, hgE⟩ := alookup_append_none_iff.1 hfG
  obtain ⟨hg12, hgP⟩ := alookup_append_none_iff.1 hg123
  obtain ⟨hgB, hgM⟩ := alookup_append_none_iff.1 hg12
  have hlookE : dlookup "energy_qm" (fullDict (MolData.build a)) =
      some (Val.vE eqm) := by
    show alookup ("energy_" ++ "qm") _ = _
    rw [fullDict_assoc, alookup_append_of_none _ hbB,
      alookup_append_of_none _ hbM, alookup_append_of_none _ hbP,
      alookup_dynSeg_self, heqm]
    rfl
  have hlookG : dlookup "gradient_qm" (fullDict (MolData.build a)) =
      some (Val.vG gqm) := by
    show alookup ("gradient_" ++ "qm") _ = _
    rw [fullDict_assoc, alookup_append_of_none _ hgB,
      alookup_append_of_none _ hgM, alookup_append_of_none _ hgP,
      alookup_append_of_none _ hgE, alookup_dynSeg_self, hgqm]
    rfl
  refine ⟨by rw [hlookE]; rfl, by rw [hlookG]; rfl, ?_, ?_⟩
  · intro habs
    have : eqm = (MolData.build a).energy := by
      have h2 := habsE habs
      rw [heqm] at h2
      exact Option.some.inj h2
    rw [hlookE, this]
  · intro habs
    have : gqm = (MolData.build a).gradient := by
      have h2 := habsG habs
      rw [hgqm] at h2
      exact Option.some.inj h2
    rw [hlookG, this]

/-- Witness inputs for the amended C10: no pre-supplied `'qm'` entry. -/
def c10wargs : MolDataArgs :=
  { molecule := emptyMolecule, xyz := [], energy := [2], gradient := [],
    energy_ref := [], gradient_ref := [], mol_id := some "w",
    classical_parameters := some (Parameters.get_nan_params emptyMolecule) }

theorem c10_qm_key_witness :
    ((alookup "qm" (MolData.build c10wargs).ff_energy).isSome ∧
      (alookup "qm" (MolData.build c10wargs).ff_gradient).isSome) ∧
    dlookup "energy_qm" (fullDict (MolData.build c10wargs)) =
      some (Val.vE (MolData.build c10wargs).energy) :=
  ⟨(c10_qm_key_amended c10wargs _ (by rfl)).1,
   ((c10_qm_key_amended c10wargs _ (by rfl)).2.2.2 (fullDict _)
     (by rfl)).2.2.1 (by rfl)⟩

/-! ## Round-trip machinery -/

theorem okBind {α β : Type} (a : α) (f : α → Except String β) :
    (Except.ok a >>= f) = f a := rfl

theorem chStarts_append_self (p rest : List Char) :
    chStarts p (p ++ rest) = true := by
  induction p with
  | nil => rfl
  | cons c cs ih => simp [chStarts, ih]

theorem pyStartsWith_append_self (p n : String) :
    pyStartsWith (p ++ n) p = true := by
  unfold pyStartsWith
  rw [String.data_append]
  exact chStarts_append_self _ _

theorem pyStartsWith_false_ne {k pfx : String}
    (h : pyStartsWith k pfx = false) : ∀ n : String, pfx ++ n ≠ k := by
  intro n hc
  rw [← hc, pyStartsWith_append_self] at h
  cases h

theorem alookup_optSeg_append_self {β : Type} (k : String) (enc : β → Val)
    (o : Option β) (rest : Dict) :
    alookup k (optSeg k enc o ++ rest) =
      (o.map enc).or (alookup k rest) := by
  cases o <;> simp [optSeg, alookup]

theorem alookup_optSeg_append_ne {β : Type} {k k' : String} (h : k' ≠ k)
    (enc : β → Val) (o : Option β) (rest : Dict) :
    alookup k (optSeg k' enc o ++ rest) = alookup k rest := by
  cases o <;> simp [optSeg, alookup, h]

theorem alookup_dynSeg_none {β : Type} {k pfx : String}
    (h : ∀ n : String, pfx ++ n ≠ k) (enc : β → Val)
    (entries : List (String × β)) :
    alookup k (dynSeg pfx enc entries) = none := by
  have h2 := alookup_dynSeg_skip h enc entries []
  rw [List.append_nil] at h2
  rw [h2]
  rfl

theorem alookup_dynTail_none {k : String} (m : MolData)
    (h1 : pyStartsWith k "energy_" = false)
    (h2 : pyStartsWith k "gradient_" = false)
    (h3 : pyStartsWith k "nonbonded_energy_" = false)
    (h4 : pyStartsWith k "nonbonded_gradient_" = false) :
    alookup k (dynSeg "energy_" Val.vE m.ff_energy
      ++ (dynSeg "gradient_" Val.vG m.ff_gradient
      ++ (dynSeg "nonbonded_energy_" Val.vE m.ff_nonbonded_energy
      ++ dynSeg "nonbonded_gradient_" Val.vG m.ff_nonbonded_gradient)))
      = none := by
  rw [alookup_dynSeg_skip (pyStartsWith_false_ne h1),
    alookup_dynSeg_skip (pyStartsWith_false_ne h2),
    alookup_dynSeg_skip (pyStartsWith_false_ne h3),
    alookup_dynSeg_none (pyStartsWith_false_ne h4)]

theorem alookup_tail_none {m : MolData} {k : String}
    (hmol : alookup k m.molecule.to_dict = none)
    (hpar : alookup k (paramSeg m) = none)
    (h1 : pyStartsWith k "energy_" = false)
    (h2 : pyStartsWith k "gradient_" = false)
    (h3 : pyStartsWith k "nonbonded_energy_" = false)
    (h4 : pyStartsWith k "nonbonded_gradient_" = false) :
    alookup k (m.molecule.to_dict ++ (paramSeg m
      ++ (dynSeg "energy_" Val.vE m.ff_energy
      ++ (dynSeg "gradient_" Val.vG m.ff_gradient
      ++ (dynSeg "nonbonded_energy_" Val.vE m.ff_nonbonded_energy
      ++ dynSeg "nonbonded_gradient_" Val.vG m.ff_nonbonded_gradient)))))
      = none := by
  rw [alookup_append_of_none _ hmol, alookup_append_of_none _ hpar]
  exact alookup_dynTail_none m h1 h2 h3 h4

/-- `fullDict` fully right-nested, with the base split into its fixed and
optional parts. -/
theorem fullDict_norm (m : MolData) :
    fullDict m = fixedSeg m ++ (optChain m ++ (m.molecule.to_dict
      ++ (paramSeg m ++ (dynSeg "energy_" Val.vE m.ff_energy
      ++ (dynSeg "gradient_" Val.vG m.ff_gradient
      ++ (dynSeg "nonbonded_energy_" Val.vE m.ff_nonbonded_energy
      ++ dynSeg "nonbonded_gradient_" Val.vG m.ff_nonbonded_gradient)))))) :=
  by simp [fullDict, baseSeg, List.append_assoc]

/- Lookups of the six optional keys through the optional segment chain. -/

theorem alookup_optChain_ms (m : MolData) (rest : Dict)
    (hrest : alookup "mapped_smiles" rest = none) :
    alookup "mapped_smiles" (optChain m ++ rest) =
      m.mapped_smiles.map Val.vS := by
  unfold optChain
  rw [List.append_assoc, alookup_optSeg_append_self, List.append_assoc,
    alookup_optSeg_append_ne (by decide), List.append_assoc,
    alookup_optSeg_append_ne (by decide), List.append_assoc,
    alookup_optSeg_append_ne (by decide), List.append_assoc,
    alookup_optSeg_append_ne (by decide),
    alookup_optSeg_append_ne (by decide), hrest, Option.or_none]

theorem alookup_optChain_pdb (m : MolData) (rest : Dict)
    (hrest : alookup "pdb" rest = none) :
    alookup "pdb" (optChain m ++ rest) = m.pdb.map Val.vS := by
  unfold optChain
  rw [List.append_assoc, alookup_optSeg_append_ne (by decide),
    List.append_assoc, alookup_optSeg_append_self, List.append_assoc,
    alookup_optSeg_append_ne (by decide), List.append_assoc,
    alookup_optSeg_append_ne (by decide), List.append_assoc,
    alookup_optSeg_append_ne (by decide),
    alookup_optSeg_append_ne (by decide), hrest, Option.or_none]

theorem alookup_optChain_smiles (m : MolData) (rest : Dict)
    (hrest : alookup "smiles" rest = none) :
    alookup "smiles" (optChain m ++ rest) = m.smiles.map Val.vS := by
  unfold optChain
  rw [List.append_assoc, alookup_optSeg_append_ne (by decide),
    List.append_assoc, alookup_optSeg_append_ne (by decide),
    List.append_assoc, alookup_optSeg_append_self, List.append_assoc,
    alookup_optSeg_append_ne (by decide), List.append_assoc,
    alookup_optSeg_append_ne (by decide),
    alookup_optSeg_append_ne (by decide), hrest, Option.or_none]

theorem alookup_optChain_sequence (m : MolData) (rest : Dict)
    (hrest : alookup "sequence" rest = none) :
    alookup "sequence" (optChain m ++ rest) = m.sequence.map Val.vS := by
  unfold optChain
  rw [List.append_assoc, alookup_optSeg_append_ne (by decide),
    List.append_assoc, alookup_optSeg_append_ne (by decide),
    List.append_assoc, alookup_optSeg_append_ne (by decide),
    List.append_assoc, alookup_optSeg_append_self, List.append_assoc,
    alookup_optSeg_append_ne (by decide),
    alookup_optSeg_append_ne (by decide), hrest, Option.or_none]

theorem alookup_optChain_impE (m : MolData) (rest : Dict)
    (hrest : alookup "improper_energy_ref" rest = none) :
    alookup "improper_energy_ref" (optChain m ++ rest) =
      m.improper_energy_ref.map Val.vE := by
  unfold optChain
  rw [List.append_assoc, alookup_optSeg_append_ne (by decide),
    List.append_assoc, alookup_optSeg_append_ne (by decide),
    List.append_assoc, alookup_optSeg_append_ne (by decide),
    List.append_assoc, alookup_optSeg_append_ne (by decide),
    List.append_assoc, alookup_optSeg_append_self,
    alookup_optSeg_append_ne (by decide), hrest, Option.or_none]

theorem alookup_optChain_impG (m : MolData) (rest : Dict)
    (hrest : alookup "improper_gradient_ref" rest = none) :
    alookup "improper_gradient_ref" (optChain m ++ rest) =
      m.improper_gradient_ref.map Val.vG := by
  unfold optChain
  rw [List.append_assoc, alookup_optSeg_append_ne (by decide),
    List.append_assoc, alookup_optSeg_append_ne (by decide),
    List.append_assoc, alookup_optSeg_append_ne (by decide),
    List.append_assoc, alookup_optSeg_append_ne (by decide),
    List.append_assoc, alookup_optSeg_append_ne (by decide),
    alookup_optSeg_append_self, hrest, Option.or_none]

/- Segment facts for the `from_dict` filters and dynamic-group parses. -/

theorem filter_optSeg_nil {β : Type} {p : String × Val → Bool} {k : String}
    {enc : β → Val} (o : Option β) (h : ∀ v, p (k, enc v) = false) :
    (optSeg k enc o).filter p = [] := by
  cases o <;> simp [optSeg, h]

theorem filter_optChain_nil {p : String × Val → Bool} (m : MolData)
    (h1 : ∀ s, p ("mapped_smiles", Val.vS s) = false)
    (h2 : ∀ s, p ("pdb", Val.vS s) = false)
    (h3 : ∀ s, p ("smiles", Val.vS s) = false)
    (h4 : ∀ s, p ("sequence", Val.vS s) = false)
    (h5 : ∀ e, p ("improper_energy_ref", Val.vE e) = false)
    (h6 : ∀ g, p ("improper_gradient_ref", Val.vG g) = false) :
    (optChain m).filter p = [] := by
  unfold optChain
  rw [List.filter_append, filter_optSeg_nil _ h1, List.filter_append,
    filter_optSeg_nil _ h2, List.filter_append, filter_optSeg_nil _ h3,
    List.filter_append, filter_optSeg_nil _ h4, List.filter_append,
    filter_optSeg_nil _ h5, filter_optSeg_nil _ h6]
  rfl

theorem filter_dynSeg_nil {β : Type} {p : String × Val → Bool}
    {pfx : String} {enc : β → Val} (entries : List (String × β))
    (h : ∀ n v, p (pfx ++ n, enc v) = false) :
    (dynSeg pfx enc entries).filter p = [] := by
  induction entries with
  | nil => rfl
  | cons nv r ih =>
    have hstep : dynSeg pfx enc (nv :: r) =
        (pfx ++ nv.1, enc nv.2) :: dynSeg pfx enc r := rfl
    rw [hstep, List.filter_cons]
    rw [h nv.1 nv.2]
    simpa using ih

theorem parseDyn_drop {β : Type} {keep : String → Bool}
    {strip : String → String} {dec : Val → Except String β} {A : Dict}
    (h : A.all (fun kv => ! keep kv.1) = true) :
    parseDyn keep strip dec A = Except.ok [] := by
  induction A with
  | nil => rfl
  | cons kv rest ih =>
    rw [List.all_cons] at h
    obtain ⟨h1, h2⟩ := Bool.and_eq_true_iff.1 h
    simp only [parseDyn]
    rw [if_neg (by simp at h1; simp [h1])]
    exact ih h2

theorem parseDyn_optSeg_nil {β γ : Type} {keep : String → Bool}
    {strip : String → String} {dec : Val → Except String β} {k : String}
    (hk : keep k = false) (enc : γ → Val) (o : Option γ) :
    parseDyn keep strip dec (optSeg k enc o) = Except.ok [] := by
  cases o <;> simp [optSeg, parseDyn, hk]

theorem parseDyn_append_ok {β : Type} {keep : String → Bool}
    {strip : String → String} {dec : Val → Except String β} {A B : Dict}
    {ra rb : List (String × β)}
    (hA : parseDyn keep strip dec A = Except.ok ra)
    (hB : parseDyn keep strip dec B = Except.ok rb) :
    parseDyn keep strip dec (A ++ B) = Except.ok (ra ++ rb) := by
  induction A generalizing ra with
  | nil =>
    cases hA
    simpa using hB
  | cons kv rest ih =>
    simp only [parseDyn, List.cons_append] at hA ⊢
    by_cases hk : keep kv.1 = true
    · rw [if_pos hk] at hA ⊢
      obtain ⟨b, hb, hA'⟩ := except_bind_ok.1 hA
      obtain ⟨r, hr, hA''⟩ := except_bind_ok.1 hA'
      cases hA''
      rw [hb, okBind]
      simp only [List.append_eq]
      rw [ih hr, okBind]
      rfl
    · rw [if_neg hk] at hA ⊢
      exact ih hA

theorem parseDyn_optChain_nil {β : Type} {keep : String → Bool}
    {strip : String → String} {dec : Val → Except String β} (m : MolData)
    (h1 : keep "mapped_smiles" = false) (h2 : keep "pdb" = false)
    (h3 : keep "smiles" = false) (h4 : keep "sequence" = false)
    (h5 : keep "improper_energy_ref" = false)
    (h6 : keep "improper_gradient_ref" = false) :
    parseDyn keep strip dec (optChain m) = Except.ok [] :=
  parseDyn_append_ok (parseDyn_optSeg_nil h1 _ _)
    (parseDyn_append_ok (parseDyn_optSeg_nil h2 _ _)
      (parseDyn_append_ok (parseDyn_optSeg_nil h3 _ _)
        (parseDyn_append_ok (parseDyn_optSeg_nil h4 _ _)
          (parseDyn_append_ok (parseDyn_optSeg_nil h5 _ _)
            (parseDyn_optSeg_nil h6 _ _)))))

theorem parseDyn_dynSeg_nil {β γ : Type} {keep : String → Bool}
    {strip : String → String} {dec : Val → Except String β} {pfx : String}
    {enc : γ → Val} (entries : List (String × γ))
    (h : ∀ n : String, keep (pfx ++ n) = false) :
    parseDyn keep strip dec (dynSeg pfx enc entries) = Except.ok [] := by
  induction entries with
  | nil => rfl
  | cons nv r ih =>
    have hstep : dynSeg pfx enc (nv :: r) =
        (pfx ++ nv.1, enc nv.2) :: dynSeg pfx enc r := rfl
    rw [hstep]
    simp only [parseDyn]
    rw [if_neg (by simp [h nv.1])]
    exact ih

theorem parseDyn_dynSeg_keep {β : Type} {keep : String → Bool}
    {strip : String → String} {dec : Val → Except String β} {pfx : String}
    {enc : β → Val} {entries : List (String × β)}
    (hkeep : ∀ nv ∈ entries, keep (pfx ++ nv.1) = true)
    (hdec : ∀ v, dec (enc v) = Except.ok v)
    (hstrip : ∀ n, strip (pfx ++ n) = n) :
    parseDyn keep strip dec (dynSeg pfx enc entries) =
      Except.ok entries := by
  induction entries with
  | nil => rfl
  | cons nv r ih =>
    have hstep : dynSeg pfx enc (nv :: r) =
        (pfx ++ nv.1, enc nv.2) :: dynSeg pfx enc r := rfl
    rw [hstep]
    simp only [parseDyn]
    rw [if_pos (hkeep nv (List.mem_cons_self _ _)), hdec, okBind,
      ih (fun x hx => hkeep x (List.mem_cons_of_mem _ hx)), okBind,
      hstrip]

/- Dynamic per-force-field keys never land in the molecule or parameter
sub-dictionaries. -/

theorem is_mol_key_dynE (n : String) :
    is_mol_key ("energy_" ++ n) = false := by
  unfold is_mol_key
  rw [show pyContains ("energy_" ++ n) "energy" = true from rfl]
  simp

theorem is_mol_key_dynG (n : String) :
    is_mol_key ("gradient_" ++ n) = false := by
  unfold is_mol_key
  rw [show pyContains ("gradient_" ++ n) "gradient" = true from rfl]
  simp

theorem is_mol_key_dynNE (n : String) :
    is_mol_key ("nonbonded_energy_" ++ n) = false := by
  unfold is_mol_key
  rw [show pyContains ("nonbonded_energy_" ++ n) "energy" = true from rfl]
  simp

theorem is_mol_key_dynNG (n : String) :
    is_mol_key ("nonbonded_gradient_" ++ n) = false := by
  unfold is_mol_key
  rw [show pyContains ("nonbonded_gradient_" ++ n) "gradient" = true
    from rfl]
  simp

theorem is_param_key_dynE (n : String) :
    is_param_key ("energy_" ++ n) = false := by
  have h1 : ("energy_" ++ n) ∉ param_keys := by
    intro hmem
    simp only [param_keys, List.mem_cons, List.not_mem_nil,
      or_false] at hmem
    rcases hmem with h | h | h | h | h | h | h | h <;>
      exact pyStartsWith_false_ne (by rfl) n h
  have h2 : ("energy_" ++ n) ∉ tuple_keys := by
    intro hmem
    simp only [tuple_keys, List.mem_cons, List.not_mem_nil,
      or_false] at hmem
    rcases hmem with h | h | h | h | h <;>
      exact pyStartsWith_false_ne (by rfl) n h
  simp [is_param_key, h1, h2]

theorem is_param_key_dynG (n : String) :
    is_param_key ("gradient_" ++ n) = false := by
  have h1 : ("gradient_" ++ n) ∉ param_keys := by
    intro hmem
    simp only [param_keys, List.mem_cons, List.not_mem_nil,
      or_false] at hmem
    rcases hmem with h | h | h | h | h | h | h | h <;>
      exact pyStartsWith_false_ne (by rfl) n h
  have h2 : ("gradient_" ++ n) ∉ tuple_keys := by
    intro hmem
    simp only [tuple_keys, List.mem_cons, List.not_mem_nil,
      or_false] at hmem
    rcases hmem with h | h | h | h | h <;>
      exact pyStartsWith_false_ne (by rfl) n h
  simp [is_param_key, h1, h2]

theorem is_param_key_dynNE (n : String) :
    is_param_key ("nonbonded_energy_" ++ n) = false := by
  have h1 : ("nonbonded_energy_" ++ n) ∉ param_keys := by
    intro hmem
    simp only [param_keys, List.mem_cons, List.not_mem_nil,
      or_false] at hmem
    rcases hmem with h | h | h | h | h | h | h | h <;>
      exact pyStartsWith_false_ne (by rfl) n h
  have h2 : ("nonbonded_energy_" ++ n) ∉ tuple_keys := by
    intro hmem
    simp only [tuple_keys, List.mem_cons, List.not_mem_nil,
      or_false] at hmem
    rcases hmem with h | h | h | h | h <;>
      exact pyStartsWith_false_ne (by rfl) n h
  simp [is_param_key, h1, h2]

theorem is_param_key_dynNG (n : String) :
    is_param_key ("nonbonded_gradient_" ++ n) = false := by
  have h1 : ("nonbonded_gradient_" ++ n) ∉ param_keys := by
    intro hmem
    simp only [param_keys, List.mem_cons, List.not_mem_nil,
      or_false] at hmem
    rcases hmem with h | h | h | h | h | h | h | h <;>
      exact pyStartsWith_false_ne (by rfl) n h
  have h2 : ("nonbonded_gradient_" ++ n) ∉ tuple_keys := by
    intro hmem
    simp only [tuple_keys, List.mem_cons, List.not_mem_nil,
      or_false] at hmem
    rcases hmem with h | h | h | h | h <;>
      exact pyStartsWith_false_ne (by rfl) n h
  simp [is_param_key, h1, h2]

/- Decoding optional entries. -/

theorem getOptStr_of {d : Dict} {k : String} {o : Option String}
    (h : dlookup k d = o.map Val.vS) :
    getOptStr d k = Except.ok o := by
  cases o <;> simp [getOptStr, h, asS, Except.map]

theorem getOptE_of {d : Dict} {k : String} {o : Option (List ℚ)}
    (h : dlookup k d = o.map Val.vE) :
    getOptE d k = Except.ok o := by
  cases o <;> simp [getOptE, h, asE, Except.map]

theorem getOptG_of {d : Dict} {k : String} {o : Option Grad}
    (h : dlookup k d = o.map Val.vG) :
    getOptG d k = Except.ok o := by
  cases o <;> simp [getOptG, h, asG, Except.map]

theorem make_eq_of (a : MolDataArgs) (m : MolData)
    (hb : MolData.build a = m) (hv : m.validate = Except.ok ()) :
    MolData.make a = Except.ok m := by
  simp only [MolData.make, hb, hv]
  rfl

/-- C2: serialization round trip. For a MolData in its constructed state
(`'qm'` entries present, parameter ids equal to the molecule's tuple arrays
as Parameters extraction produces them, shapes valid, non-`'None'` id),
whenever `to_dict` succeeds, `from_dict` rebuilds the object field for
field: every array bit-for-bit (exactly, over the rational embedding),
every string exactly, and every key assigned back to the same
Molecule/Parameters/MolData-level group it was exported from. Since `save`
and `load` are `np.savez`/`np.load` around these two functions, this is
also the `load(save(m)) = m` law. -/
theorem c2_roundtrip (m : MolData) (d : Dict)
    (hq : (alookup "qm" m.ff_energy).isSome = true ∧
      (alookup "qm" m.ff_gradient).isSome = true)
    (hids : m.classical_parameters.atoms = m.molecule.atoms ∧
      m.classical_parameters.bonds = m.molecule.bonds ∧
      m.classical_parameters.angles = m.molecule.angles ∧
      m.classical_parameters.propers = m.molecule.propers ∧
      m.classical_parameters.impropers = m.molecule.impropers)
    (hshE : ∀ kv ∈ m.ff_energy, kv.2.length = m.energy.length)
    (hshG : ∀ kv ∈ m.ff_gradient, gradShape kv.2 = gradShape m.gradient)
    (hmid : m.mol_id ≠ "None")
    (hok : MolData.to_dict m = Except.ok d) :
    MolData.from_dict d = Except.ok m := by
  obtain ⟨rfl, hdisj1, hdisj2, f3, n3, f4, n4, f5, n5, f6, n6⟩ :=
    to_dict_ok_elim hok
  -- no force-field name generates the reserved keys energy_ref/gradient_ref
  have hneE : ∀ nv ∈ m.ff_energy,
      ("energy_" : String) ++ nv.1 ≠ "energy_ref" := by
    intro nv hnv hc
    have h0 := f3 nv hnv
    rw [hc] at h0
    have hsome : dlookup "energy_ref"
        (baseSeg m ++ m.molecule.to_dict ++ paramSeg m) =
        some (Val.vE m.energy_ref) :=
      alookup_append_of_some _ (alookup_append_of_some _ (by rfl))
    rw [h0] at hsome
    cases hsome
  have hneG : ∀ nv ∈ m.ff_gradient,
      ("gradient_" : String) ++ nv.1 ≠ "gradient_ref" := by
    intro nv hnv hc
    have h0 := f4 nv hnv
    rw [hc] at h0
    have hsome : dlookup "gradient_ref"
        (baseSeg m ++ m.molecule.to_dict ++ paramSeg m
          ++ dynSeg "energy_" Val.vE m.ff_energy) =
        some (Val.vG m.gradient_ref) :=
      alookup_append_of_some _ (alookup_append_of_some _
        (alookup_append_of_some _ (by rfl)))
    rw [h0] at hsome
    cases hsome
  -- the six optional entries
  have hms : dlookup "mapped_smiles" (fullDict m) =
      m.mapped_smiles.map Val.vS := by
    rw [fullDict_norm]
    show alookup "mapped_smiles" _ = _
    rw [alookup_append_of_none _
      (show alookup "mapped_smiles" (fixedSeg m) = none from rfl)]
    exact alookup_optChain_ms m _ (alookup_tail_none rfl rfl rfl rfl rfl rfl)
  have hpdb : dlookup "pdb" (fullDict m) = m.pdb.map Val.vS := by
    rw [fullDict_norm]
    show alookup "pdb" _ = _
    rw [alookup_append_of_none _
      (show alookup "pdb" (fixedSeg m) = none from rfl)]
    exact alookup_optChain_pdb m _ (alookup_tail_none rfl rfl rfl rfl rfl rfl)
  have hsm : dlookup "smiles" (fullDict m) = m.smiles.map Val.vS := by
    rw [fullDict_norm]
    show alookup "smiles" _ = _
    rw [alookup_append_of_none _
      (show alookup "smiles" (fixedSeg m) = none from rfl)]
    exact alookup_optChain_smiles m _
      (alookup_tail_none rfl rfl rfl rfl rfl rfl)
  have hsq : dlookup "sequence" (fullDict m) = m.sequence.map Val.vS := by
    rw [fullDict_norm]
    show alookup "sequence" _ = _
    rw [alookup_append_of_none _
      (show alookup "sequence" (fixedSeg m) = none from rfl)]
    exact alookup_optChain_sequence m _
      (alookup_tail_none rfl rfl rfl rfl rfl rfl)
  have hie : dlookup "improper_energy_ref" (fullDict m) =
      m.improper_energy_ref.map Val.vE := by
    rw [fullDict_norm]
    show alookup "improper_energy_ref" _ = _
    rw [alookup_append_of_none _
      (show alookup "improper_energy_ref" (fixedSeg m) = none from rfl)]
    exact alookup_optChain_impE m _
      (alookup_tail_none rfl rfl rfl rfl rfl rfl)
  have hig : dlookup "improper_gradient_ref" (fullDict m) =
      m.improper_gradient_ref.map Val.vG := by
    rw [fullDict_norm]
    show alookup "improper_gradient_ref" _ = _
    rw [alookup_append_of_none _
      (show alookup "improper_gradient_ref" (fixedSeg m) = none from rfl)]
    exact alookup_optChain_impG m _
      (alookup_tail_none rfl rfl rfl rfl rfl rfl)
  -- the molecule sub-dictionary is exactly the molecule's own dictionary
  have hfmol : (fullDict m).filter (fun kv => is_mol_key kv.1) =
      m.molecule.to_dict := by
    rw [fullDict_norm, List.filter_append, List.filter_append,
      List.filter_append, List.filter_append, List.filter_append,
      List.filter_append, List.filter_append]
    rw [show (fixedSeg m).filter (fun kv => is_mol_key kv.1) = []
      from rfl]
    rw [filter_optChain_nil m (fun _ => rfl) (fun _ => rfl) (fun _ => rfl)
      (fun _ => rfl) (fun _ => rfl) (fun _ => rfl)]
    rw [show (m.molecule.to_dict).filter (fun kv => is_mol_key kv.1) =
      m.molecule.to_dict from rfl]
    rw [show (paramSeg m).filter (fun kv => is_mol_key kv.1) = []
      from rfl]
    rw [filter_dynSeg_nil _ (fun n _ => is_mol_key_dynE n),
      filter_dynSeg_nil _ (fun n _ => is_mol_key_dynG n),
      filter_dynSeg_nil _ (fun n _ => is_mol_key_dynNE n),
      filter_dynSeg_nil _ (fun n _ => is_mol_key_dynNG n)]
    simp
  -- the parameter sub-dictionary: molecule tuple ids plus value arrays
  have hfpar : (fullDict m).filter (fun kv => is_param_key kv.1) =
      (m.molecule.to_dict).filter (fun kv => is_param_key kv.1)
        ++ paramSeg m := by
    rw [fullDict_norm, List.filter_append, List.filter_append,
      List.filter_append, List.filter_append, List.filter_append,
      List.filter_append, List.filter_append]
    rw [show (fixedSeg m).filter (fun kv => is_param_key kv.1) = []
      from rfl]
    rw [filter_optChain_nil m (fun _ => rfl) (fun _ => rfl) (fun _ => rfl)
      (fun _ => rfl) (fun _ => rfl) (fun _ => rfl)]
    rw [show (paramSeg m).filter (fun kv => is_param_key kv.1) =
      paramSeg m from rfl]
    rw [filter_dynSeg_nil _ (fun n _ => is_param_key_dynE n),
      filter_dynSeg_nil _ (fun n _ => is_param_key_dynG n),
      filter_dynSeg_nil _ (fun n _ => is_param_key_dynNE n),
      filter_dynSeg_nil _ (fun n _ => is_param_key_dynNG n)]
    simp
  have hparams : Parameters.from_dict
      ((m.molecule.to_dict).filter (fun kv => is_param_key kv.1)
        ++ paramSeg m) = Except.ok m.classical_parameters := by
    obtain ⟨h1, h2, h3, h4, h5⟩ := hids
    have hraw : Parameters.from_dict
        ((m.molecule.to_dict).filter (fun kv => is_param_key kv.1)
          ++ paramSeg m) = Except.ok
        (⟨m.molecule.atoms, m.molecule.bonds, m.molecule.angles,
          m.molecule.propers, m.molecule.impropers,
          m.classical_parameters.bond_k, m.classical_parameters.bond_eq,
          m.classical_parameters.angle_k, m.classical_parameters.angle_eq,
          m.classical_parameters.proper_ks,
          m.classical_parameters.proper_phases,
          m.classical_parameters.improper_ks,
          m.classical_parameters.improper_phases⟩ : Parameters) := rfl
    rw [hraw, ← h1, ← h2, ← h3, ← h4, ← h5]
  -- the four dynamic groups parse back to the original dictionaries
  have hkeepE : ∀ nv ∈ m.ff_energy,
      is_ffE_key ("energy_" ++ nv.1) = true := by
    intro nv hnv
    unfold is_ffE_key
    rw [pyStartsWith_append_self]
    simp [hneE nv hnv]
  have hkeepG : ∀ nv ∈ m.ff_gradient,
      is_ffG_key ("gradient_" ++ nv.1) = true := by
    intro nv hnv
    unfold is_ffG_key
    rw [pyStartsWith_append_self]
    simp [hneG nv hnv]
  have hpE : parseDyn is_ffE_key pySplit1 asE (fullDict m) =
      Except.ok m.ff_energy := by
    rw [fullDict_norm]
    have hch : parseDyn is_ffE_key pySplit1 asE
        (fixedSeg m ++ (optChain m ++ (m.molecule.to_dict ++ (paramSeg m
        ++ (dynSeg "energy_" Val.vE m.ff_energy
        ++ (dynSeg "gradient_" Val.vG m.ff_gradient
        ++ (dynSeg "nonbonded_energy_" Val.vE m.ff_nonbonded_energy
        ++ dynSeg "nonbonded_gradient_" Val.vG m.ff_nonbonded_gradient))))))) =
        Except.ok ([] ++ ([] ++ ([] ++ ([] ++ (m.ff_energy
          ++ ([] ++ ([] ++ []))))))) :=
      parseDyn_append_ok (parseDyn_drop (by rfl))
        (parseDyn_append_ok
          (parseDyn_optChain_nil m rfl rfl rfl rfl rfl rfl)
          (parseDyn_append_ok (parseDyn_drop (by rfl))
            (parseDyn_append_ok (parseDyn_drop (by rfl))
              (parseDyn_append_ok
                (parseDyn_dynSeg_keep hkeepE (fun _ => rfl) (fun _ => rfl))
                (parseDyn_append_ok (parseDyn_dynSeg_nil _ (fun _ => rfl))
                  (parseDyn_append_ok
                    (parseDyn_dynSeg_nil _ (fun _ => rfl))
                    (parseDyn_dynSeg_nil _ (fun _ => rfl))))))))
    simpa using hch
  have hpG : parseDyn is_ffG_key pySplit1 asG (fullDict m) =
      Except.ok m.ff_gradient := by
    rw [fullDict_norm]
    have hch : parseDyn is_ffG_key pySplit1 asG
        (fixedSeg m ++ (optChain m ++ (m.molecule.to_dict ++ (paramSeg m
        ++ (dynSeg "energy_" Val.vE m.ff_energy
        ++ (dynSeg "gradient_" Val.vG m.ff_gradient
        ++ (dynSeg "nonbonded_energy_" Val.vE m.ff_nonbonded_energy
        ++ dynSeg "nonbonded_gradient_" Val.vG m.ff_nonbonded_gradient))))))) =
        Except.ok ([] ++ ([] ++ ([] ++ ([] ++ ([]
          ++ (m.ff_gradient ++ ([] ++ []))))))) :=
      parseDyn_append_ok (parseDyn_drop (by rfl))
        (parseDyn_append_ok
          (parseDyn_optChain_nil m rfl rfl rfl rfl rfl rfl)
          (parseDyn_append_ok (parseDyn_drop (by rfl))
            (parseDyn_append_ok (parseDyn_drop (by rfl))
              (parseDyn_append_ok (parseDyn_dynSeg_nil _ (fun _ => rfl))
                (parseDyn_append_ok
                  (parseDyn_dynSeg_keep hkeepG (fun _ => rfl)
                    (fun _ => rfl))
                  (parseDyn_append_ok
                    (parseDyn_dynSeg_nil _ (fun _ => rfl))
                    (parseDyn_dynSeg_nil _ (fun _ => rfl))))))))
    simpa using hch
  have hpNE : parseDyn is_nbE_key pySplit2 asE (fullDict m) =
      Except.ok m.ff_nonbonded_energy := by
    rw [fullDict_norm]
    have hch : parseDyn is_nbE_key pySplit2 asE
        (fixedSeg m ++ (optChain m ++ (m.molecule.to_dict ++ (paramSeg m
        ++ (dynSeg "energy_" Val.vE m.ff_energy
        ++ (dynSeg "gradient_" Val.vG m.ff_gradient
        ++ (dynSeg "nonbonded_energy_" Val.vE m.ff_nonbonded_energy
        ++ dynSeg "nonbonded_gradient_" Val.vG m.ff_nonbonded_gradient))))))) =
        Except.ok ([] ++ ([] ++ ([] ++ ([] ++ ([]
          ++ ([] ++ (m.ff_nonbonded_energy ++ []))))))) :=
      parseDyn_append_ok (parseDyn_drop (by rfl))
        (parseDyn_append_ok
          (parseDyn_optChain_nil m rfl rfl rfl rfl rfl rfl)
          (parseDyn_append_ok (parseDyn_drop (by rfl))
            (parseDyn_append_ok (parseDyn_drop (by rfl))
              (parseDyn_append_ok (parseDyn_dynSeg_nil _ (fun _ => rfl))
                (parseDyn_append_ok (parseDyn_dynSeg_nil _ (fun _ => rfl))
                  (parseDyn_append_ok
                    (parseDyn_dynSeg_keep
                      (fun nv _ => pyStartsWith_append_self _ _)
                      (fun _ => rfl) (fun _ => rfl))
                    (parseDyn_dynSeg_nil _ (fun _ => rfl))))))))
    simpa using hch
  have hpNG : parseDyn is_nbG_key pySplit2 asG (fullDict m) =
      Except.ok m.ff_nonbonded_gradient := by
    rw [fullDict_norm]
    have hch : parseDyn is_nbG_key pySplit2 asG
        (fixedSeg m ++ (optChain m ++ (m.molecule.to_dict ++ (paramSeg m
        ++ (dynSeg "energy_" Val.vE m.ff_energy
        ++ (dynSeg "gradient_" Val.vG m.ff_gradient
        ++ (dynSeg "nonbonded_energy_" Val.vE m.ff_nonbonded_energy
        ++ dynSeg "nonbonded_gradient_" Val.vG m.ff_nonbonded_gradient))))))) =
        Except.ok ([] ++ ([] ++ ([] ++ ([] ++ ([]
          ++ ([] ++ ([] ++ m.ff_nonbonded_gradient))))))) :=
      parseDyn_append_ok (parseDyn_drop (by rfl))
        (parseDyn_append_ok
          (parseDyn_optChain_nil m rfl rfl rfl rfl rfl rfl)
          (parseDyn_append_ok (parseDyn_drop (by rfl))
            (parseDyn_append_ok (parseDyn_drop (by rfl))
              (parseDyn_append_ok (parseDyn_dynSeg_nil _ (fun _ => rfl))
                (parseDyn_append_ok (parseDyn_dynSeg_nil _ (fun _ => rfl))
                  (parseDyn_append_ok
                    (parseDyn_dynSeg_nil _ (fun _ => rfl))
                    (parseDyn_dynSeg_keep
                      (fun nv _ => pyStartsWith_append_self _ _)
                      (fun _ => rfl) (fun _ => rfl))))))))
    simpa using hch
  -- evaluate from_dict
  simp only [MolData.from_dict,
    show getKey (fullDict m) "xyz" = Except.ok (Val.vG m.xyz) from rfl,
    show getKey (fullDict m) "energy" = Except.ok (Val.vE m.energy)
      from rfl,
    show getKey (fullDict m) "gradient" = Except.ok (Val.vG m.gradient)
      from rfl,
    show getKey (fullDict m) "energy_ref" =
      Except.ok (Val.vE m.energy_ref) from rfl,
    show getKey (fullDict m) "gradient_ref" =
      Except.ok (Val.vG m.gradient_ref) from rfl,
    show getKey (fullDict m) "mol_id" = Except.ok (Val.vS m.mol_id)
      from rfl,
    show ∀ g : Grad, asG (Val.vG g) = Except.ok g from fun _ => rfl,
    show ∀ e : List ℚ, asE (Val.vE e) = Except.ok e from fun _ => rfl,
    show ∀ s : String, asS (Val.vS s) = Except.ok s from fun _ => rfl,
    getOptStr_of hms, getOptStr_of hpdb, getOptStr_of hsm,
    getOptStr_of hsq, getOptE_of hie, getOptG_of hig,
    hfmol, show Molecule.from_dict m.molecule.to_dict =
      Except.ok m.molecule from rfl,
    hfpar, hparams, hpE, hpG, hpNE, hpNG, okBind]
  refine make_eq_of _ m ?_ ?_
  · simp only [MolData.build, Option.getD_some]
    rw [if_pos hq.1, if_pos hq.2]
    rfl
  · exact (validate_ok_iff m).2 ⟨hshE, hshG, hmid⟩

/-- Witness molecule and MolData for the round trip. -/
def c2mol : Molecule := ⟨[0, 1], [(0, 1)], [], [], [], [1, -1]⟩

def c2args : MolDataArgs :=
  { molecule := c2mol,
    xyz := [[(0, 0, 0), (1, 0, 0)]],
    energy := [1],
    gradient := [[(0, 0, 0), (0, 0, 0)]],
    energy_ref := [0],
    gradient_ref := [[(0, 0, 0), (0, 0, 0)]],
    mol_id := some "mol",
    classical_parameters := some (Parameters.get_nan_params c2mol),
    smiles := some "CC",
    improper_energy_ref := some [3],
    ff_energy := some [("amber", [2])],
    ff_gradient := some [("amber", [[(0, 0, 0), (0, 0, 0)]])] }

def c2m : MolData := MolData.build c2args

theorem c2_roundtrip_witness :
    MolData.from_dict (fullDict c2m) = Except.ok c2m :=
  c2_roundtrip c2m (fullDict c2m) (by decide) (by decide) (by decide)
    (by decide) (by decide) (by rfl)

/-! ## `write_to_system`: src/grappa/utils/openmm_utils.py

An OpenMM system is embedded as its force list; each force holds its term
list with per-term parameters (units are identities in the embedding: all
quantities are already in grappa units). -/

structure BondTerm : Type where
  a1 : Nat
  a2 : Nat
  length : ℚ
  k : ℚ
deriving DecidableEq

structure AngleTerm : Type where
  a1 : Nat
  a2 : Nat
  a3 : Nat
  angle : ℚ
  k : ℚ
deriving DecidableEq

structure TorsionTerm : Type where
  a1 : Nat
  a2 : Nat
  a3 : Nat
  a4 : Nat
  periodicity : Nat
  phase : ℚ
  k : ℚ
deriving DecidableEq

inductive Force : Type
  | bondF : List BondTerm → Force
  | angleF : List AngleTerm → Force
  | torsionF : List TorsionTerm → Force
  | otherF : Force
deriving DecidableEq

abbrev OpenMMSystem := List Force

/-- Generic association-list lookup (Python dict `.get`). -/
def glookup {α β : Type} [DecidableEq α] (key : α) :
    List (α × β) → Option β
  | [] => none
  | kv :: rest => if kv.1 = key then some kv.2 else glookup key rest

/-- Removing a binding (the removal half of Python dict `.pop`). -/
def eraseKey {α β : Type} [DecidableEq α] (key : α) :
    List (α × β) → List (α × β)
  | [] => []
  | kv :: rest => if kv.1 = key then rest else kv :: eraseKey key rest

def sortedInsert (x : Nat) : List Nat → List Nat
  | [] => [x]
  | y :: ys => if x ≤ y then x :: y :: ys else y :: sortedInsert x ys

/-- Python `sorted` on a list of atom indices (insertion sort). -/
def pySorted (l : List Nat) : List Nat := l.foldr sortedInsert []

/-- `{tuple(sorted(p)) for p in list(impropers) + list(propers)}`. -/
def ordered_torsions (p : Parameters) : List (List Nat) :=
  (p.impropers ++ p.propers).map
    (fun q => pySorted [q.1, q.2.1, q.2.2.1, q.2.2.2])

/-- Threading a state through a list while rewriting its elements
(the in-place per-term update loops of `write_to_system`). -/
def mapAccuml {σ α : Type} (f : σ → α → σ × α) :
    σ → List α → σ × List α
  | s, [] => (s, [])
  | s, x :: xs =>
    let r := f s x
    let rs := mapAccuml f r.1 xs
    (rs.1, r.2 :: rs.2)

/-- One `HarmonicBondForce` term: try `(a1, a2)`, then `(a2, a1)`; on a hit,
pop the binding and overwrite `(length, k)` from `(bond_eq, bond_k)`. -/
def stepBond (bl : List ((Nat × Nat) × (ℚ × ℚ))) (t : BondTerm) :
    List ((Nat × Nat) × (ℚ × ℚ)) × BondTerm :=
  match glookup (t.a1, t.a2) bl with
  | some kv => (eraseKey (t.a1, t.a2) bl,
      { t with length := kv.2, k := kv.1 })
  | none =>
    match glookup (t.a2, t.a1) bl with
    | some kv => (eraseKey (t.a2, t.a1) bl,
        { t with length := kv.2, k := kv.1 })
    | none => (bl, t)

/-- One `HarmonicAngleForce` term: `pop((a1,a2,a3))`, else the reversal. -/
def stepAngle (al : List ((Nat × Nat × Nat) × (ℚ × ℚ))) (t : AngleTerm) :
    List ((Nat × Nat × Nat) × (ℚ × ℚ)) × AngleTerm :=
  match glookup (t.a1, t.a2, t.a3) al with
  | some kv => (eraseKey (t.a1, t.a2, t.a3) al,
      { t with angle := kv.2, k := kv.1 })
  | none =>
    match glookup (t.a3, t.a2, t.a1) al with
    | some kv => (eraseKey (t.a3, t.a2, t.a1) al,
        { t with angle := kv.2, k := kv.1 })
    | none => (al, t)

/-- One `PeriodicTorsionForce` term: if the sorted atom quadruple appears in
the proper-or-improper tuple set, set its force constant to zero (atoms,
periodicity and phase kept); otherwise leave it untouched. -/
def zeroMatching (ot : List (List Nat)) (t : TorsionTerm) : TorsionTerm :=
  if ot.contains (pySorted [t.a1, t.a2, t.a3, t.a4]) then { t with k := 0 }
  else t

/-- The per-force loop body of `write_to_system`. -/
def stepForce (ot : List (List Nat))
    (s : List ((Nat × Nat) × (ℚ × ℚ))
      × List ((Nat × Nat × Nat) × (ℚ × ℚ))) :
    Force → (List ((Nat × Nat) × (ℚ × ℚ))
      × List ((Nat × Nat × Nat) × (ℚ × ℚ))) × Force
  | .bondF ts =>
    let r := mapAccuml stepBond s.1 ts
    ((r.1, s.2), .bondF r.2)
  | .angleF ts =>
    let r := mapAccuml stepAngle s.2 ts
    ((s.1, r.1), .angleF r.2)
  | .torsionF ts => (s, .torsionF (ts.map (zeroMatching ot)))
  | .otherF => (s, .otherF)

/-- The replacement torsion force terms: one term per tuple and nonzero
periodicity entry, with `periodicity = n + 1` for row index `n`. -/
def newTorsionTerms (tuples : List T4) (ks phases : List (List ℚ)) :
    List TorsionTerm :=
  (tuples.zip (ks.zip phases)).flatMap (fun tkp =>
    ((tkp.2.1.zip tkp.2.2).enum).filterMap (fun nk =>
      if nk.2.1 ≠ 0 then
        some ⟨tkp.1.1, tkp.1.2.1, tkp.1.2.2.1, tkp.1.2.2.2,
          nk.1 + 1, nk.2.2, nk.2.1⟩
      else none))

/-- `write_to_system(system, parameters)`: assert nonnegative torsion force
constants, overwrite matching bond/angle terms (removing them from the
lookup), zero out every periodic-torsion term whose order-ignoring atom
quadruple is in the proper-or-improper tuple set, append new forces for
unmatched bonds/angles, then append the canonical replacement proper and
improper torsion forces. -/
def write_to_system (system : OpenMMSystem) (parameters : Parameters) :
    Except String OpenMMSystem :=
  if ¬ (parameters.proper_ks.all (fun row =>
      row.all (fun k => decide (0 ≤ k)))) then
    Except.error "assert failed: proper_ks must be nonnegative"
  else if ¬ (parameters.improper_ks.all (fun row =>
      row.all (fun k => decide (0 ≤ k)))) then
    Except.error "assert failed: improper_ks must be nonnegative"
  else
    let bond_lookup := parameters.bonds.zip
      (parameters.bond_k.zip parameters.bond_eq)
    let angle_lookup := parameters.angles.zip
      (parameters.angle_k.zip parameters.angle_eq)
    let ot := ordered_torsions parameters
    let r := mapAccuml (stepForce ot) (bond_lookup, angle_lookup) system
    let bondExtra : List Force :=
      if r.1.1.isEmpty then [] else
        [.bondF (r.1.1.map (fun kv =>
          ⟨kv.1.1, kv.1.2, kv.2.2, kv.2.1⟩))]
    let angleExtra : List Force :=
      if r.1.2.isEmpty then [] else
        [.angleF (r.1.2.map (fun kv =>
          ⟨kv.1.1, kv.1.2.1, kv.1.2.2, kv.2.2, kv.2.1⟩))]
    Except.ok (r.2 ++ bondExtra ++ angleExtra ++
      [.torsionF (newTorsionTerms parameters.propers parameters.proper_ks
        parameters.proper_phases),
       .torsionF (newTorsionTerms parameters.impropers
        parameters.improper_ks parameters.improper_phases)])

/-- The lookup state and rewritten force list after the per-force loop. -/
def wtsState (sys : OpenMMSystem) (p : Parameters) :
    (List ((Nat × Nat) × (ℚ × ℚ))
      × List ((Nat × Nat × Nat) × (ℚ × ℚ))) × List Force :=
  mapAccuml (stepForce (ordered_torsions p))
    (p.bonds.zip (p.bond_k.zip p.bond_eq),
     p.angles.zip (p.angle_k.zip p.angle_eq)) sys

def wtsBondExtra (sys : OpenMMSystem) (p : Parameters) : List Force :=
  if (wtsState sys p).1.1.isEmpty then [] else
    [.bondF ((wtsState sys p).1.1.map (fun kv =>
      ⟨kv.1.1, kv.1.2, kv.2.2, kv.2.1⟩))]

def wtsAngleExtra (sys : OpenMMSystem) (p : Parameters) : List Force :=
  if (wtsState sys p).1.2.isEmpty then [] else
    [.angleF ((wtsState sys p).1.2.map (fun kv =>
      ⟨kv.1.1, kv.1.2.1, kv.1.2.2, kv.2.2, kv.2.1⟩))]

theorem write_to_system_ok_elim (sys : OpenMMSystem) (p : Parameters)
    (out : OpenMMSystem) (hok : write_to_system sys p = Except.ok out) :
    out = (wtsState sys p).2 ++ wtsBondExtra sys p ++ wtsAngleExtra sys p ++
      [.torsionF (newTorsionTerms p.propers p.proper_ks p.proper_phases),
       .torsionF (newTorsionTerms p.impropers p.improper_ks
        p.improper_phases)] := by
  simp only [write_to_system] at hok
  split at hok
  · exact Except.noConfusion hok
  split at hok
  · exact Except.noConfusion hok
  exact (Except.ok.inj (show Except.ok
    ((wtsState sys p).2 ++ wtsBondExtra sys p ++ wtsAngleExtra sys p ++
      [.torsionF (newTorsionTerms p.propers p.proper_ks p.proper_phases),
       .torsionF (newTorsionTerms p.impropers p.improper_ks
        p.improper_phases)]) = Except.ok out from hok)).symm

theorem mapAccuml_stepForce_get (ot : List (List Nat)) :
    ∀ (l : List Force)
      (s : List ((Nat × Nat) × (ℚ × ℚ))
        × List ((Nat × Nat × Nat) × (ℚ × ℚ)))
      (i : Nat) (ts : List TorsionTerm),
      l[i]? = some (Force.torsionF ts) →
      (mapAccuml (stepForce ot) s l).2[i]? =
        some (Force.torsionF (ts.map (zeroMatching ot)))
  | [], _, i, ts, h => by simp at h
  | f :: rest, s, 0, ts, h => by
    simp only [List.getElem?_cons_zero, Option.some.injEq] at h
    subst h
    simp [mapAccuml, stepForce]
  | f :: rest, s, i + 1, ts, h => by
    simp only [List.getElem?_cons_succ] at h
    simp only [mapAccuml, List.getElem?_cons_succ]
    exact mapAccuml_stepForce_get ot rest _ i ts h

theorem mapAccuml_length {σ α : Type} (f : σ → α → σ × α) :
    ∀ (l : List α) (s : σ), (mapAccuml f s l).2.length = l.length
  | [], _ => rfl
  | x :: xs, s => by
    simp only [mapAccuml, List.length_cons]
    rw [mapAccuml_length f xs]

/-- C8: a successful `write_to_system` run (i) rewrites every pre-existing
periodic-torsion force in place, mapping each term through `zeroMatching`;
(ii) `zeroMatching` sets the force constant of a term to zero exactly when
its sorted atom quadruple occurs in the union of the proper and improper
tuple sets, keeping atoms, periodicity and phase, and leaves every other
term unchanged; and (iii) the output ends with the canonical replacement
proper and improper torsion forces, appended after all rewriting. -/
theorem c8_torsion_zeroing (sys : OpenMMSystem) (p : Parameters)
    (out : OpenMMSystem) (hok : write_to_system sys p = Except.ok out) :
    (∀ (i : Nat) (ts : List TorsionTerm),
      sys[i]? = some (Force.torsionF ts) →
      out[i]? = some (Force.torsionF
        (ts.map (zeroMatching (ordered_torsions p))))) ∧
    (∀ t : TorsionTerm,
      ((ordered_torsions p).contains
          (pySorted [t.a1, t.a2, t.a3, t.a4]) = true →
        zeroMatching (ordered_torsions p) t = { t with k := 0 }) ∧
      ((ordered_torsions p).contains
          (pySorted [t.a1, t.a2, t.a3, t.a4]) = false →
        zeroMatching (ordered_torsions p) t = t)) ∧
    (∃ pre : OpenMMSystem, out = pre ++
      [Force.torsionF (newTorsionTerms p.propers p.proper_ks
        p.proper_phases),
       Force.torsionF (newTorsionTerms p.impropers p.improper_ks
        p.improper_phases)]) := by
  have hout := write_to_system_ok_elim sys p out hok
  refine ⟨?_, ?_, ?_⟩
  · intro i ts h
    have hlt : i < sys.length := by
      by_contra hge
      push_neg at hge
      rw [List.getElem?_eq_none hge] at h
      exact Option.noConfusion h
    have hproc : (wtsState sys p).2[i]? =
        some (Force.torsionF (ts.map (zeroMatching (ordered_torsions p)))) :=
      mapAccuml_stepForce_get (ordered_torsions p) sys _ i ts h
    have hlen : i < (wtsState sys p).2.length := by
      rw [wtsState, mapAccuml_length]
      exact hlt
    rw [hout]
    rw [List.getElem?_append_left (by
      simp only [List.length_append]
      omega)]
    rw [List.getElem?_append_left (by
      simp only [List.length_append]
      omega)]
    rw [List.getElem?_append_left hlen]
    exact hproc
  · intro t
    constructor
    · intro hc
      unfold zeroMatching
      rw [hc]
      rfl
    · intro hc
      unfold zeroMatching
      rw [hc]
      rfl
  · exact ⟨(wtsState sys p).2 ++ wtsBondExtra sys p ++ wtsAngleExtra sys p,
      by rw [hout]⟩

def c8sys : OpenMMSystem :=
  [Force.torsionF [⟨0, 1, 2, 3, 1, 0, 5⟩, ⟨4, 5, 6, 7, 1, 0, 7⟩],
   Force.otherF]

def c8p : Parameters :=
  { atoms := [0, 1, 2, 3], bonds := [], angles := [],
    propers := [(0, 1, 2, 3)], impropers := [],
    bond_k := [], bond_eq := [], angle_k := [], angle_eq := [],
    proper_ks := [[1]], proper_phases := [[0]],
    improper_ks := [], improper_phases := [] }

def c8out : OpenMMSystem :=
  [Force.torsionF [⟨0, 1, 2, 3, 1, 0, 0⟩, ⟨4, 5, 6, 7, 1, 0, 7⟩],
   Force.otherF,
   Force.torsionF [⟨0, 1, 2, 3, 1, 0, 1⟩],
   Force.torsionF []]

theorem c8_torsion_zeroing_witness :
    (∀ (i : Nat) (ts : List TorsionTerm),
      c8sys[i]? = some (Force.torsionF ts) →
      c8out[i]? = some (Force.torsionF
        (ts.map (zeroMatching (ordered_torsions c8p))))) ∧
    (∀ t : TorsionTerm,
      ((ordered_torsions c8p).contains
          (pySorted [t.a1, t.a2, t.a3, t.a4]) = true →
        zeroMatching (ordered_torsions c8p) t = { t with k := 0 }) ∧
      ((ordered_torsions c8p).contains
          (pySorted [t.a1, t.a2, t.a3, t.a4]) = false →
        zeroMatching (ordered_torsions c8p) t = t)) ∧
    (∃ pre : OpenMMSystem, c8out = pre ++
      [Force.torsionF (newTorsionTerms c8p.propers c8p.proper_ks
        c8p.proper_phases),
       Force.torsionF (newTorsionTerms c8p.impropers c8p.improper_ks
        c8p.improper_phases)]) :=
  c8_torsion_zeroing c8sys c8p c8out rfl

end Grappa
